import Mathlib

/-!
Verification development for the concurrent generation engine of the
`the-one-prompt` repository.

The embedding translates `src/rateLimiter.ts` (the admission controller),
`src/engine.ts` (the grid update engine) and the relevant parts of
`src/kernel.ts` / `src/constants.ts` into Lean.

JavaScript runs the program single-threaded with cooperative concurrency:
each piece of code between two `await` points executes atomically.  The
embedding therefore models the program as a transition system whose events
are exactly those atomic segments (a method call up to its first `await`,
the continuation after an `await` resolves, a `setTimeout` callback firing).
Machine integers do not overflow at the sizes involved; `Date.now()`
timestamps are modelled as natural numbers carried by the events, with
clock monotonicity stated as a hypothesis where a claim needs it.
-/

/-- A grid cell (`kernel.ts`): a single mutable text value. -/
structure Cell where
  text : String
deriving DecidableEq, Repr

/-- The grid: a two-dimensional array of cells, addressed `grid[y][x]`. -/
abbrev Grid := List (List Cell)

/-- `constants.ts`: `MAX_CONCURRENT = 10`. -/
def MAX_CONCURRENT : Nat := 10

/-- `constants.ts`: `MIN_INTERVAL_MS = 50`. -/
def MIN_INTERVAL_MS : Nat := 50

/-!
## Admission controller — `src/rateLimiter.ts`

The `queue` of the source holds the `attempt` closures created by
`acquire()`; each closure belongs to one pending `acquire` call.  The
embedding makes the queue a list of caller identifiers of type `α` (the
engine uses task indices).  The field `grants` is a history variable
recording the timestamp of every granted start, in order; it corresponds
to the successive values written into `lastStart` and exists only so that
the spacing property can be stated.  All other fields are the source's.
-/
structure RateLimiter (α : Type) where
  maxConcurrent : Nat
  minInterval : Nat
  active : Nat
  lastStart : Nat
  queue : List α
  grants : List Nat
deriving DecidableEq, Repr

/-- The constructor: `maxConcurrent = Math.max(1, maxConcurrent)`,
`minInterval = Math.max(0, minIntervalMs)`, counters zero, queue empty. -/
def RateLimiter.init (α : Type) (maxConcurrent minIntervalMs : Nat) : RateLimiter α :=
  { maxConcurrent := max 1 maxConcurrent
    minInterval := max 0 minIntervalMs
    active := 0
    lastStart := 0
    queue := []
    grants := [] }

/-- One run, at time `t`, of the `attempt` closure belonging to waiter `a`:
if fewer than `maxConcurrent` operations are active and at least
`minInterval` has elapsed since `lastStart`, the waiter is granted
(`active++`, `lastStart = now`, its promise resolves); otherwise the
closure re-queues itself.  Returns the granted waiter, if any. -/
def RateLimiter.attempt (s : RateLimiter α) (a : α) (t : Nat) :
    RateLimiter α × Option α :=
  if s.active < s.maxConcurrent ∧ s.minInterval ≤ t - s.lastStart then
    ({ s with active := s.active + 1, lastStart := t, grants := s.grants ++ [t] }, some a)
  else
    ({ s with queue := s.queue ++ [a] }, none)

/-- The body of `processQueue`, with explicit fuel for termination
(the source loop terminates because every iteration either returns or
shifts the queue; the fuel is set to the queue length by the wrapper).
Returns the list of waiters granted during this synchronous run.
A positive remaining wait makes the source schedule a
`setTimeout(() => this.processQueue(), wait)` and return; the timeout
firing is a separate event of the transition system. -/
def RateLimiter.processQueueAux : Nat → RateLimiter α → Nat → RateLimiter α × List α
  | 0, s, _ => (s, [])
  | fuel + 1, s, t =>
    match s.queue with
    | [] => (s, [])
    | a :: rest =>
      if s.maxConcurrent ≤ s.active then (s, [])
      else if 0 < s.minInterval - (t - s.lastStart) then (s, [])
      else
        let p := RateLimiter.attempt { s with queue := rest } a t
        let granted := match p.2 with
          | some a0 => [a0]
          | none => []
        if p.1.queue.length ≠ 0 ∧ p.1.active < p.1.maxConcurrent then
          let q := RateLimiter.processQueueAux fuel p.1 t
          (q.1, granted ++ q.2)
        else
          (p.1, granted)

/-- `processQueue` at time `t` (`Date.now()` of the running turn). -/
def RateLimiter.processQueue (s : RateLimiter α) (t : Nat) : RateLimiter α × List α :=
  RateLimiter.processQueueAux s.queue.length s t

/-- `acquire()` called by waiter `a` at time `t`: pushes the waiter's
`attempt` onto the queue and runs `processQueue` synchronously. -/
def RateLimiter.acquire (s : RateLimiter α) (a : α) (t : Nat) : RateLimiter α × List α :=
  RateLimiter.processQueue { s with queue := s.queue ++ [a] } t

/-- `release()` at time `t`: `if (active > 0) active--` (natural
subtraction models the guard exactly) and re-runs `processQueue`. -/
def RateLimiter.release (s : RateLimiter α) (t : Nat) : RateLimiter α × List α :=
  RateLimiter.processQueue { s with active := s.active - 1 } t

/-- The externally visible events of a rate-limiter run: an `acquire()`
call by waiter `a`, a `release()` call, or a scheduled `processQueue`
timeout firing, each carrying its `Date.now()` timestamp. -/
inductive RLEvent (α : Type) where
  | acquire (a : α) (t : Nat)
  | release (t : Nat)
  | timer (t : Nat)
deriving DecidableEq, Repr

/-- The timestamp of an event. -/
def RLEvent.time : RLEvent α → Nat
  | .acquire _ t => t
  | .release t => t
  | .timer t => t

/-- One event applied to a limiter state. -/
def rlStep (s : RateLimiter α) : RLEvent α → RateLimiter α
  | .acquire a t => (s.acquire a t).1
  | .release t => (s.release t).1
  | .timer t => (s.processQueue t).1

/-- A whole run of events. -/
def rlRun (s : RateLimiter α) (events : List (RLEvent α)) : RateLimiter α :=
  events.foldl rlStep s

/-- Event timestamps are nondecreasing and bounded below by `c`
(wall-clock monotonicity of `Date.now()`). -/
def timesOk (c : Nat) : List (RLEvent α) → Bool
  | [] => true
  | ev :: rest => decide (c ≤ ev.time) && timesOk ev.time rest

/-- Consecutive elements of the list are at least `I` apart. -/
def Spaced (I : Nat) : List Nat → Prop :=
  List.Chain' (fun a b => a + I ≤ b)

/-- The last granted start of a grant history, `0` if there is none. -/
def lastGrant : List Nat → Nat
  | [] => 0
  | [a] => a
  | _ :: a :: rest => lastGrant (a :: rest)

/-- Invariant of the spacing proof, relative to the current clock `c`:
granted starts are at least `minInterval` apart, `lastStart` is the most
recent granted start (`0` before the first), and `lastStart` does not lie
in the future. -/
def RLInv (s : RateLimiter α) (c : Nat) : Prop :=
  Spaced s.minInterval s.grants ∧ s.lastStart = lastGrant s.grants ∧ s.lastStart ≤ c

/-!
## Grid update engine — `src/engine.ts`

`Engine` carries the source's fields (`cols`, `rows`, `grid`, `helper`,
`generationInProgress`, `loadingCells`, `limiter`).  The `helper` field of
the source is an `OpenAIHelper | null`; only its null-ness matters to the
engine's control flow, so it is modelled as a `Bool` ("has a helper been
installed").  In addition the state carries the pool of launched per-cell
async tasks (`tasks`, the closures created by `updateSingleCell` and by
the launch loop of `nextGeneration`) and one record per `nextGeneration`
call (`steps`, the `Promise.all` barrier of each call), which in the
source live in the JavaScript event loop rather than in a field.
-/

/-- Where a per-cell task stands between its `await` points. -/
inductive Phase where
  /-- `await limiter.acquire()` not yet resolved. -/
  | pending
  /-- `acquire()` resolved; the continuation has not run yet. -/
  | granted
  /-- The kernel (external collaborator) call is in flight. -/
  | running
  /-- The task function returned; its promise is fulfilled. -/
  | done
  /-- The task function threw; its promise is rejected. -/
  | faulted
deriving DecidableEq, Repr

/-- The four neighbor indices computed by the source:
`upY = (cy - 1 + rows) % rows`, `downY = (cy + 1) % rows`,
`leftX = (cx - 1 + cols) % cols`, `rightX = (cx + 1) % cols`. -/
structure NeighborIdx where
  upY : Int
  downY : Int
  leftX : Int
  rightX : Int
deriving DecidableEq, Repr

/-- The arguments of one `kernel(helper, prompt, top, bottom, left, right,
current)` invocation (`src/kernel.ts`), minus the helper object. -/
structure KernelArgs where
  prompt : String
  top : Cell
  bottom : Cell
  left : Cell
  right : Cell
  current : Cell
deriving DecidableEq, Repr

deriving instance DecidableEq for Except

/-- One per-cell async task.  `snap` is the snapshot array captured by the
task's closure; `precomputed` holds the neighbor indices for a
single-cell update (the source computes them before `await acquire()`),
and is `none` for a generation task (the source computes them inside the
task body, after the `await`).  `args` records the arguments actually
passed to `kernel` (a history variable), and `outcome` the settlement of
the kernel promise (a history variable). -/
structure CellTask where
  x : Int
  y : Int
  snap : Grid
  prompt : String
  precomputed : Option NeighborIdx
  phase : Phase
  args : Option KernelArgs
  outcome : Option (Except String String)
deriving DecidableEq, Repr

/-- The settlement state of one `nextGeneration` call's
`await Promise.all(tasks)` barrier. -/
inductive StepStatus where
  | stillPending
  | resolvedOk
  | rejected
deriving DecidableEq, Repr

/-- One `nextGeneration` call: the indices of the tasks it launched and
the state of its barrier. -/
structure StepRec where
  ids : List Nat
  status : StepStatus
deriving DecidableEq, Repr

/-- The engine state. -/
structure Engine where
  cols : Nat
  rows : Nat
  grid : Grid
  helper : Bool
  generationInProgress : Bool
  loadingCells : List String
  limiter : RateLimiter Nat
  tasks : List CellTask
  steps : List StepRec
deriving DecidableEq, Repr

/-- `createGrid()`: a `rows × cols` array of cells with empty text. -/
def createGrid (rows cols : Nat) : Grid :=
  List.replicate rows (List.replicate cols { text := "" })

/-- The constructor `new Engine(cols, rows)`; `helper` starts null and the
limiter is built from the configuration constants. -/
def Engine.init (cols rows : Nat) : Engine :=
  { cols := cols
    rows := rows
    grid := createGrid rows cols
    helper := false
    generationInProgress := false
    loadingCells := []
    limiter := RateLimiter.init Nat MAX_CONCURRENT MIN_INTERVAL_MS
    tasks := []
    steps := [] }

/-- `setApiKey` / `initHelperFromStorage`: both unconditionally install a
fresh `OpenAIHelper`, so the helper is non-null afterwards. -/
def Engine.setApiKey (e : Engine) : Engine :=
  { e with helper := true }

/-- `cellKey(x, y)`: the string `x,y`. -/
def cellKey (x y : Int) : String :=
  toString x ++ "," ++ toString y

/-- `snapshot()`: `grid.map(row => row.map(c => ({ ...c })))` — a deep
copy of the cell objects. -/
def Engine.snapshot (e : Engine) : Grid :=
  e.grid.map (fun row => row.map (fun c => { text := c.text }))

/-- Reading `g[y][x]` from a JavaScript array-of-arrays: `none` models an
access that yields `undefined` (or throws, for a negative/overflowing row
index followed by a member access). -/
def cellAt? (g : Grid) (x y : Int) : Option Cell :=
  if 0 ≤ y ∧ 0 ≤ x then (g.get? y.toNat).bind (fun row => row.get? x.toNat) else none

/-- Reading `g[y][x].text` where the access is known in bounds (used by
`resize`'s copy loop); out of range defaults to `""`. -/
def cellTextAt (g : Grid) (x y : Nat) : String :=
  match (g.get? y).bind (fun row => row.get? x) with
  | some c => c.text
  | none => ""

/-- The assignment `g[y][x].text = text`.  `none` models the `TypeError`
thrown when `g[y]` or `g[y][x]` is `undefined` (coordinate outside the
current grid). -/
def gridWrite (g : Grid) (x y : Int) (text : String) : Option Grid :=
  if 0 ≤ y ∧ 0 ≤ x then
    match g.get? y.toNat with
    | none => none
    | some row =>
      if x.toNat < row.length then
        some (g.set y.toNat (row.set x.toNat { text := text }))
      else none
  else none

/-- `Set.add` on `loadingCells`. -/
def addKey (k : String) (l : List String) : List String :=
  if k ∈ l then l else l ++ [k]

/-- `Set.delete` on `loadingCells`. -/
def removeKey (k : String) (l : List String) : List String :=
  l.filter (fun k0 => k0 ≠ k)

/-- The neighbor indices as computed by the source at dimensions
`rows × cols`.  (For the coordinates the engine produces, the dividends
are nonnegative, where JavaScript `%` and `Int.emod` agree.) -/
def computeIdx (rows cols : Nat) (cx cy : Int) : NeighborIdx :=
  { upY := (cy - 1 + (rows : Int)) % (rows : Int)
    downY := (cy + 1) % (rows : Int)
    leftX := (cx - 1 + (cols : Int)) % (cols : Int)
    rightX := (cx + 1) % (cols : Int) }

/-- The five snapshot reads of one kernel invocation:
`snap[upY][cx]`, `snap[downY][cx]`, `snap[cy][leftX]`, `snap[cy][rightX]`,
`snap[cy][cx]`; `none` if any read faults. -/
def kernelArgsOf (snap : Grid) (idx : NeighborIdx) (cx cy : Int) (prompt : String) :
    Option KernelArgs :=
  match cellAt? snap cx idx.upY, cellAt? snap cx idx.downY,
        cellAt? snap idx.leftX cy, cellAt? snap idx.rightX cy,
        cellAt? snap cx cy with
  | some u, some d, some l, some r, some c =>
    some { prompt := prompt, top := u, bottom := d, left := l, right := r, current := c }
  | _, _, _, _, _ => none

/-- Helper for `applyGrants`: walk the task list with its running index. -/
def applyGrantsFrom (granted : List Nat) : Nat → List CellTask → List CellTask
  | _, [] => []
  | i0, task :: rest =>
    (if i0 ∈ granted ∧ task.phase = Phase.pending then { task with phase := Phase.granted }
     else task) :: applyGrantsFrom granted (i0 + 1) rest

/-- Mark the listed pending waiters' tasks as granted (their `acquire`
promises resolved; the continuations are queued as microtasks). -/
def applyGrants (tasks : List CellTask) (granted : List Nat) : List CellTask :=
  applyGrantsFrom granted 0 tasks

/-- Replace task `i`. -/
def setTask (tasks : List CellTask) (i : Nat) (task : CellTask) : List CellTask :=
  tasks.set i task

/-- The message of the `TypeError` raised by an out-of-range snapshot
read or grid write (`e instanceof Error ? e.message : String(e)`). -/
def typeErrorMsg : String := "TypeError"

/-- The tail every task runs on both paths, success and failure: the
grid write `grid[cy][cx].text = text` (caught `try`/`catch` around it),
then the `finally` block — `loadingCells.delete(key)` and
`limiter.release()`.  If the write faults, the `catch` clause's own write
`grid[cy][cx].text = errMsg` faults at the same coordinate, so the task
function throws after its `finally` and its promise is rejected
(`Phase.faulted`). -/
def Engine.finishTask (e : Engine) (i : Nat) (task : CellTask) (text : String)
    (outc : Except String String) (t : Nat) : Engine :=
  let key := cellKey task.x task.y
  match gridWrite e.grid task.x task.y text with
  | some g =>
    let p := e.limiter.release t
    { e with grid := g
             loadingCells := removeKey key e.loadingCells
             limiter := p.1
             tasks := applyGrants
               (setTask e.tasks i { task with phase := Phase.done, outcome := some outc }) p.2 }
  | none =>
    let p := e.limiter.release t
    { e with loadingCells := removeKey key e.loadingCells
             limiter := p.1
             tasks := applyGrants
               (setTask e.tasks i { task with phase := Phase.faulted, outcome := some outc }) p.2 }

/-- The neighbor indices a task resolves when its body runs: the ones
computed before `await acquire()` for a single-cell update, or freshly
from the engine's *current* dimensions for a generation task. -/
def contIdx (e : Engine) (task : CellTask) : NeighborIdx :=
  match task.precomputed with
  | some v => v
  | none => computeIdx e.rows e.cols task.x task.y

/-- The part of a task continuation after `loadingCells.add(key)`: the
five snapshot reads, then the `kernel` call is started (`Phase.running`,
arguments recorded).  A faulting snapshot read is a `TypeError` inside
the `try`, so the `catch` clause writes the error text into the live
grid immediately and the task finishes. -/
def Engine.contBody (e : Engine) (i : Nat) (task : CellTask) (t : Nat) : Engine :=
  match kernelArgsOf task.snap (contIdx e task) task.x task.y task.prompt with
  | some a =>
    { e with tasks := setTask e.tasks i { task with phase := Phase.running, args := some a } }
  | none =>
    Engine.finishTask e i task typeErrorMsg (Except.error typeErrorMsg) t

/-- The continuation of task `i` after its `acquire()` resolved:
`loadingCells.add(key)`, then `contBody`. -/
def Engine.contTask (e : Engine) (i : Nat) (t : Nat) : Engine :=
  match e.tasks.get? i with
  | none => e
  | some task =>
    if task.phase = Phase.granted then
      Engine.contBody
        { e with loadingCells := addKey (cellKey task.x task.y) e.loadingCells } i task t
    else e

/-- The settlement of task `i`'s kernel promise: on success the returned
text is written to the live grid, on failure the failure's message is
written (`catch` clause), and in both cases the `finally` runs. -/
def Engine.resolveTask (e : Engine) (i : Nat) (outcome : Except String String) (t : Nat) :
    Engine :=
  match e.tasks.get? i with
  | none => e
  | some task =>
    if task.phase = Phase.running then
      let text := match outcome with
        | Except.ok s => s
        | Except.error m => m
      Engine.finishTask e i task text outcome t
    else e

/-- A scheduled `processQueue` timeout firing at time `t`. -/
def Engine.timerFire (e : Engine) (t : Nat) : Engine :=
  let p := e.limiter.processQueue t
  { e with limiter := p.1, tasks := applyGrants e.tasks p.2 }

/-- The continuation of a `nextGeneration` call's
`await Promise.all(tasks)`: the barrier rejects as soon as one of its
tasks' promises rejects (leaving `generationInProgress` set — the line
clearing it is never reached), and resolves once all tasks fulfilled,
clearing `generationInProgress`. -/
def Engine.barrierCheck (e : Engine) (k : Nat) : Engine :=
  match e.steps.get? k with
  | none => e
  | some rec0 =>
    if rec0.status = StepStatus.stillPending then
      if rec0.ids.any (fun i =>
          match e.tasks.get? i with
          | some task => decide (task.phase = Phase.faulted)
          | none => false) then
        { e with steps := e.steps.set k { rec0 with status := StepStatus.rejected } }
      else if rec0.ids.all (fun i =>
          match e.tasks.get? i with
          | some task => decide (task.phase = Phase.done)
          | none => false) then
        { e with steps := e.steps.set k { rec0 with status := StepStatus.resolvedOk }
                 generationInProgress := false }
      else e
    else e

/-- One iteration of `nextGeneration`'s launch loop: the async task
closure is created and runs synchronously up to `await limiter.acquire()`
(the `acquire()` call itself, including its synchronous `processQueue`,
happens now). -/
def Engine.launchOne (acc : Engine) (prompt : String) (snap : Grid) (c : Int × Int)
    (t : Nat) : Engine :=
  let task : CellTask :=
    { x := c.1, y := c.2, snap := snap, prompt := prompt
      precomputed := none, phase := Phase.pending, args := none, outcome := none }
  let id := acc.tasks.length
  let acc1 := { acc with tasks := acc.tasks ++ [task] }
  let p := acc1.limiter.acquire id t
  { acc1 with limiter := p.1, tasks := applyGrants acc1.tasks p.2 }

/-- The synchronous part of `nextGeneration(prompt)` at time `t`: sets
`generationInProgress = true` (there is no rejection check), takes the
snapshot, and launches one task per coordinate of `order`.  The source
enumerates all coordinates row-major and applies a Fisher-Yates shuffle
with `Math.random()`; the resulting permutation is the `order` parameter
of the event, so properties quantify over it. -/
def Engine.nextGenerationLaunch (e : Engine) (prompt : String) (order : List (Int × Int))
    (t : Nat) : Engine :=
  let e0 := { e with generationInProgress := true }
  let snap := e0.snapshot
  let startId := e0.tasks.length
  let e1 := order.foldl (fun acc c => Engine.launchOne acc prompt snap c t) e0
  { e1 with steps := e1.steps ++ [{ ids := List.range' startId order.length
                                    status := StepStatus.stillPending }] }

/-- The synchronous part of `updateSingleCell(cx, cy, prompt)` at time
`t`: the four rejection checks in source order (`generationInProgress`,
null helper, bounds, single-flight on `loadingCells`), then snapshot,
neighbor-index computation, and `await limiter.acquire()`. -/
def Engine.updateSingleCell (e : Engine) (cx cy : Int) (prompt : String) (t : Nat) :
    Engine :=
  if e.generationInProgress then e
  else if !e.helper then e
  else if cy < 0 ∨ (e.rows : Int) ≤ cy ∨ cx < 0 ∨ (e.cols : Int) ≤ cx then e
  else
    let key := cellKey cx cy
    if key ∈ e.loadingCells then e
    else
      let snap := e.snapshot
      let idx := computeIdx e.rows e.cols cx cy
      let task : CellTask :=
        { x := cx, y := cy, snap := snap, prompt := prompt
          precomputed := some idx, phase := Phase.pending, args := none, outcome := none }
      let id := e.tasks.length
      let e1 := { e with tasks := e.tasks ++ [task] }
      let p := e1.limiter.acquire id t
      { e1 with limiter := p.1, tasks := applyGrants e1.tasks p.2 }

/-- `resize(newSize)`: no-op when the size is unchanged; otherwise a
fresh `newSize × newSize` grid of empty cells receives the old text over
the overlapping region `[0, min(oldCols,newSize)) × [0, min(oldRows,newSize))`. -/
def Engine.resize (e : Engine) (newSize : Nat) : Engine :=
  if newSize = e.cols ∧ newSize = e.rows then e
  else
    let copyCols := min e.cols newSize
    let copyRows := min e.rows newSize
    let newGrid : Grid :=
      (List.range newSize).map (fun y =>
        (List.range newSize).map (fun x =>
          if y < copyRows ∧ x < copyCols then { text := cellTextAt e.grid x y }
          else { text := "" }))
    { e with cols := newSize, rows := newSize, grid := newGrid }

/-- The atomic events of an engine run. -/
inductive EEvent where
  /-- A `nextGeneration(prompt)` call; `order` is the shuffled coordinate
  enumeration, `t` the call's `Date.now()`. -/
  | runStep (prompt : String) (order : List (Int × Int)) (t : Nat)
  /-- An `updateSingleCell(cx, cy, prompt)` call. -/
  | updateCell (cx cy : Int) (prompt : String) (t : Nat)
  /-- A `setApiKey` / `initHelperFromStorage` call. -/
  | setKey
  /-- A `resize(newSize)` call. -/
  | resizeTo (newSize : Nat)
  /-- Task `i`'s continuation after `acquire()` resolved. -/
  | cont (i : Nat) (t : Nat)
  /-- Task `i`'s kernel promise settling with `outcome`. -/
  | settle (i : Nat) (outcome : Except String String) (t : Nat)
  /-- A rate-limiter timeout firing. -/
  | timer (t : Nat)
  /-- Step `k`'s `Promise.all` barrier checking its tasks. -/
  | barrier (k : Nat)
deriving DecidableEq, Repr

/-- One event applied to an engine state.  An event whose task or step
does not exist, or is not at the right phase, is a no-op (its real
counterpart cannot occur then). -/
def estep (e : Engine) : EEvent → Engine
  | .runStep prompt order t => e.nextGenerationLaunch prompt order t
  | .updateCell cx cy prompt t => e.updateSingleCell cx cy prompt t
  | .setKey => e.setApiKey
  | .resizeTo n => e.resize n
  | .cont i t => e.contTask i t
  | .settle i outcome t => e.resolveTask i outcome t
  | .timer t => e.timerFire t
  | .barrier k => e.barrierCheck k

/-- A whole engine run. -/
def erun (e : Engine) (events : List EEvent) : Engine :=
  events.foldl estep e

/-- Events internal to an already-launched generation step (no further
API calls on the engine). -/
def stepInternal : EEvent → Bool
  | .cont _ _ => true
  | .settle _ _ _ => true
  | .timer _ => true
  | .barrier _ => true
  | _ => false

/-- The source's row-major coordinate enumeration of `nextGeneration`. -/
def coordsList (cols rows : Nat) : List (Int × Int) :=
  (List.range rows).flatMap
    (fun y => (List.range cols).map (fun (x : Nat) => ((x : Int), (y : Int))))

/-!
## Derived notions used by the statements
-/

/-- The text a settled kernel promise makes the task write into its cell:
the returned text on success, the failure's message on failure. -/
def textOf : Except String String → String
  | Except.ok s => s
  | Except.error m => m

/-- A grid is a consistent `rows × cols` array-of-arrays. -/
def GridShape (g : Grid) (rows cols : Nat) : Prop :=
  g.length = rows ∧ ∀ j row, g.get? j = some row → row.length = cols

/-- Per-task part of the snapshot-isolation invariant: the task still
holds the step-start grid `g0` as its snapshot, resolves its neighbors in
the task body (no precomputed indices — it is a generation task), and
whenever it has invoked the kernel, the arguments it passed are exactly
the neighbor reads of `g0` at the step-start dimensions. -/
def TaskSnapOk (g0 : Grid) (r0 c0 : Nat) (task : CellTask) : Prop :=
  task.snap = g0 ∧ task.precomputed = none ∧
  ∀ a, task.args = some a →
    kernelArgsOf g0 (computeIdx r0 c0 task.x task.y) task.x task.y task.prompt = some a

/-- Invariant for the snapshot-isolation claim, relative to the grid `g0`
and dimensions `r0 × c0` observed when the generation step started:
dimensions are unchanged and every launched task satisfies
`TaskSnapOk`. -/
structure SnapInv (g0 : Grid) (r0 c0 : Nat) (s : Engine) : Prop where
  rows_eq : s.rows = r0
  cols_eq : s.cols = c0
  tasks_ok : ∀ i task, s.tasks.get? i = some task → TaskSnapOk g0 r0 c0 task

/-- Invariant for the fault-containment claim, for a step launched from a
state with grid `g0`, dimensions `r0 × c0` and coordinate order `order`:
dimensions and shape are stable, task `i` belongs to coordinate
`order[i]`, no task's promise is ever rejected, the barrier is never
rejected, a completed task's cell holds the text of its outcome, and a
resolved barrier has cleared the in-progress flag. -/
structure StepInv (g0 : Grid) (r0 c0 : Nat) (order : List (Int × Int)) (s : Engine) : Prop where
  rows_eq : s.rows = r0
  cols_eq : s.cols = c0
  shape : GridShape s.grid r0 c0
  len_eq : s.tasks.length = order.length
  coords : ∀ i task, s.tasks.get? i = some task → order.get? i = some (task.x, task.y)
  not_faulted : ∀ i task, s.tasks.get? i = some task → task.phase ≠ Phase.faulted
  done_cell : ∀ i task, s.tasks.get? i = some task → task.phase = Phase.done →
    ∃ o, task.outcome = some o ∧ cellAt? s.grid task.x task.y = some { text := textOf o }
  snaps : ∀ i task, s.tasks.get? i = some task →
    task.snap = g0 ∧ task.precomputed = none
  steps_eq : ∃ st, s.steps = [{ ids := List.range order.length, status := st }] ∧
    st ≠ StepStatus.rejected ∧
    (st = StepStatus.resolvedOk → s.generationInProgress = false)

/-!
## Concrete states and traces used by witnesses and counterexamples
-/

/-- A 3×3 grid whose cell `(x, y)` carries the text `x,y`. -/
def gridThree : Grid :=
  [ [{ text := "0,0" }, { text := "1,0" }, { text := "2,0" }]
  , [{ text := "0,1" }, { text := "1,1" }, { text := "2,1" }]
  , [{ text := "0,2" }, { text := "1,2" }, { text := "2,2" }] ]

/-- A 1×1 engine with one known cell and an installed helper. -/
def engineOneCell : Engine :=
  { Engine.init 1 1 with grid := [[{ text := "init" }]], helper := true }

/-- A run in which a second `nextGeneration` call arrives while the first
step's only task is still in flight.  The first step's task resolves with
`A`, the second step's with `B`. -/
def reentryTrace : List EEvent :=
  [ EEvent.runStep "p" [(0, 0)] 100
  , EEvent.cont 0 100
  , EEvent.runStep "p" [(0, 0)] 100
  , EEvent.settle 0 (Except.ok "A") 150
  , EEvent.barrier 0
  , EEvent.cont 1 160
  , EEvent.settle 1 (Except.ok "B") 220
  , EEvent.barrier 1 ]

/-- The same run with the re-entrant `nextGeneration` call removed (its
dependent events then find no task and are no-ops). -/
def soloTrace : List EEvent :=
  [ EEvent.runStep "p" [(0, 0)] 100
  , EEvent.cont 0 100
  , EEvent.settle 0 (Except.ok "A") 150
  , EEvent.barrier 0
  , EEvent.cont 1 160
  , EEvent.settle 1 (Except.ok "B") 220
  , EEvent.barrier 1 ]

/-- A 2×2 engine with known texts and an installed helper. -/
def engineTwoByTwo : Engine :=
  { Engine.init 2 2 with
      grid := [ [{ text := "a" }, { text := "b" }]
              , [{ text := "c" }, { text := "d" }] ]
      helper := true }

/-- A run in which a generation step launches (cell `(1,1)` drawn first
by the shuffle), that task starts its kernel call, the grid is resized to
1×1 while the call is in flight, and the call then succeeds with `X`. -/
def shrinkTrace : List EEvent :=
  [ EEvent.runStep "p" [(1, 1), (0, 0), (1, 0), (0, 1)] 100
  , EEvent.cont 0 100
  , EEvent.resizeTo 1
  , EEvent.settle 0 (Except.ok "X") 160
  , EEvent.barrier 0 ]

/-- The engine state at the end of `shrinkTrace`. -/
def shrunkState : Engine := erun engineTwoByTwo shrinkTrace

/-- A 5×5 engine whose cell `(x, y)` carries the text `x;y`. -/
def engineFive : Engine :=
  { Engine.init 5 5 with
      grid := (List.range 5).map (fun y =>
        (List.range 5).map (fun x => { text := toString x ++ ";" ++ toString y })) }

/-- A 3×3 engine with the `gridThree` contents. -/
def engineThree : Engine :=
  { Engine.init 3 3 with grid := gridThree }

/-!
## Rate limiter: the concurrency bound (claim C1)
-/

theorem RateLimiter.attempt_maxConcurrent (s : RateLimiter α) (a : α) (t : Nat) :
    (s.attempt a t).1.maxConcurrent = s.maxConcurrent := by
  unfold RateLimiter.attempt
  split <;> rfl

theorem RateLimiter.attempt_active_le (s : RateLimiter α) (a : α) (t : Nat)
    (h : s.active ≤ s.maxConcurrent) :
    (s.attempt a t).1.active ≤ s.maxConcurrent := by
  unfold RateLimiter.attempt
  split
  next h1 => exact h1.1
  next => exact h

theorem RateLimiter.processQueueAux_maxConcurrent :
    ∀ (fuel : Nat) (s : RateLimiter α) (t : Nat),
      (RateLimiter.processQueueAux fuel s t).1.maxConcurrent = s.maxConcurrent := by
  intro fuel
  induction fuel with
  | zero => intro s t; rfl
  | succ n ih =>
    intro s t
    unfold RateLimiter.processQueueAux
    split
    · rfl
    next a rest hq =>
      split
      · rfl
      · split
        · rfl
        · simp only
          split
          · rw [ih]
            rw [RateLimiter.attempt_maxConcurrent]
          · rw [RateLimiter.attempt_maxConcurrent]

theorem RateLimiter.processQueueAux_active_le :
    ∀ (fuel : Nat) (s : RateLimiter α) (t : Nat), s.active ≤ s.maxConcurrent →
      (RateLimiter.processQueueAux fuel s t).1.active ≤ s.maxConcurrent := by
  intro fuel
  induction fuel with
  | zero => intro s t h; exact h
  | succ n ih =>
    intro s t h
    unfold RateLimiter.processQueueAux
    split
    · exact h
    next a rest hq =>
      split
      · exact h
      · split
        · exact h
        · simp only
          split
          · have h2 : (RateLimiter.attempt { s with queue := rest } a t).1.active ≤
                (RateLimiter.attempt { s with queue := rest } a t).1.maxConcurrent := by
              rw [RateLimiter.attempt_maxConcurrent]
              exact RateLimiter.attempt_active_le _ a t h
            have h3 := ih (RateLimiter.attempt { s with queue := rest } a t).1 t h2
            rw [RateLimiter.attempt_maxConcurrent] at h3
            exact h3
          · exact RateLimiter.attempt_active_le _ a t h

theorem rlStep_maxConcurrent (s : RateLimiter α) (ev : RLEvent α) :
    (rlStep s ev).maxConcurrent = s.maxConcurrent := by
  cases ev <;>
    simp only [rlStep, RateLimiter.acquire, RateLimiter.release, RateLimiter.processQueue] <;>
    rw [RateLimiter.processQueueAux_maxConcurrent]

theorem rlStep_active_le (s : RateLimiter α) (ev : RLEvent α)
    (h : s.active ≤ s.maxConcurrent) :
    (rlStep s ev).active ≤ (rlStep s ev).maxConcurrent := by
  rw [rlStep_maxConcurrent]
  cases ev with
  | acquire a t =>
    simp only [rlStep, RateLimiter.acquire, RateLimiter.processQueue]
    exact RateLimiter.processQueueAux_active_le _ _ t h
  | release t =>
    simp only [rlStep, RateLimiter.release, RateLimiter.processQueue]
    exact RateLimiter.processQueueAux_active_le _ _ t (Nat.le_trans (Nat.sub_le _ _) h)
  | timer t =>
    simp only [rlStep, RateLimiter.processQueue]
    exact RateLimiter.processQueueAux_active_le _ _ t h

theorem rlRun_maxConcurrent :
    ∀ (events : List (RLEvent α)) (s : RateLimiter α),
      (rlRun s events).maxConcurrent = s.maxConcurrent := by
  intro events
  induction events with
  | nil => intro s; rfl
  | cons ev rest ih =>
    intro s
    show (rlRun (rlStep s ev) rest).maxConcurrent = s.maxConcurrent
    rw [ih, rlStep_maxConcurrent]

theorem rlRun_active_le :
    ∀ (events : List (RLEvent α)) (s : RateLimiter α), s.active ≤ s.maxConcurrent →
      (rlRun s events).active ≤ (rlRun s events).maxConcurrent := by
  intro events
  induction events with
  | nil => intro s h; exact h
  | cons ev rest ih =>
    intro s h
    show (rlRun (rlStep s ev) rest).active ≤ (rlRun (rlStep s ev) rest).maxConcurrent
    exact ih (rlStep s ev) (rlStep_active_le s ev h)

/-- C1: for a rate limiter constructed with `maxConcurrent = K` (`K ≥ 1`,
as required by the construction contract; smaller values are clamped),
after any interleaving of `acquire()` calls, `release()` calls and timer
firings the count of operations granted but not yet released — the
`active` field — never exceeds `K`.  Quantifying over all event lists
covers every point of every run, since any point is the end of a prefix. -/
theorem rateLimiter_concurrency_bound (K I : Nat) (events : List (RLEvent Nat))
    (hK : 1 ≤ K) :
    (rlRun (RateLimiter.init Nat K I) events).active ≤ K := by
  have h0 : (RateLimiter.init Nat K I).active ≤ (RateLimiter.init Nat K I).maxConcurrent :=
    Nat.zero_le _
  have h1 := rlRun_active_le events (RateLimiter.init Nat K I) h0
  have h2 := rlRun_maxConcurrent events (RateLimiter.init Nat K I)
  rw [h2] at h1
  have h3 : (RateLimiter.init Nat K I).maxConcurrent = K := by
    show max 1 K = K
    exact Nat.max_eq_right hK
  rw [h3] at h1
  exact h1

/-- Witness for C1 at `K = 3`, `I = 0` on a concrete interleaving. -/
theorem rateLimiter_concurrency_bound_witness :
    1 ≤ 3 ∧ (rlRun (RateLimiter.init Nat 3 0)
      [RLEvent.acquire 0 5, RLEvent.acquire 1 5, RLEvent.release 7]).active ≤ 3 :=
  ⟨by decide, rateLimiter_concurrency_bound 3 0 _ (by decide)⟩

/-!
## Rate limiter: spacing of granted starts (claim C2)
-/

theorem lastGrant_snoc : ∀ (gs : List Nat) (t : Nat), lastGrant (gs ++ [t]) = t
  | [], _ => rfl
  | [_], _ => rfl
  | a :: b :: rest, t => by
    show lastGrant (a :: b :: (rest ++ [t])) = t
    rw [show lastGrant (a :: b :: (rest ++ [t])) = lastGrant (b :: (rest ++ [t])) from rfl]
    exact lastGrant_snoc (b :: rest) t

theorem spaced_snoc (I t : Nat) :
    ∀ gs, Spaced I gs → lastGrant gs + I ≤ t → Spaced I (gs ++ [t])
  | [], _, _ => List.chain'_singleton t
  | [a], _, hl => List.chain'_cons.mpr ⟨hl, List.chain'_singleton t⟩
  | a :: b :: rest, h, hl => by
    obtain ⟨hab, h2⟩ := List.chain'_cons.mp h
    exact List.chain'_cons.mpr ⟨hab, spaced_snoc I t (b :: rest) h2 hl⟩

theorem RateLimiter.attempt_inv (s : RateLimiter α) (a : α) (t c : Nat)
    (h : RLInv s c) (hct : c ≤ t) : RLInv (s.attempt a t).1 t := by
  obtain ⟨h1, h2, h3⟩ := h
  unfold RateLimiter.attempt
  split
  next hg =>
    obtain ⟨hg1, hg2⟩ := hg
    show RLInv { s with active := s.active + 1, lastStart := t, grants := s.grants ++ [t] } t
    refine ⟨?_, ?_, Nat.le_refl t⟩
    · show Spaced s.minInterval (s.grants ++ [t])
      exact spaced_snoc _ t _ h1 (by rw [← h2]; omega)
    · show t = lastGrant (s.grants ++ [t])
      rw [lastGrant_snoc]
  next =>
    show RLInv { s with queue := s.queue ++ [a] } t
    exact ⟨h1, h2, Nat.le_trans h3 hct⟩

theorem RateLimiter.attempt_minInterval (s : RateLimiter α) (a : α) (t : Nat) :
    (s.attempt a t).1.minInterval = s.minInterval := by
  unfold RateLimiter.attempt
  split <;> rfl

theorem RateLimiter.processQueueAux_inv :
    ∀ (fuel : Nat) (s : RateLimiter α) (t c : Nat), RLInv s c → c ≤ t →
      RLInv (RateLimiter.processQueueAux fuel s t).1 t := by
  intro fuel
  induction fuel with
  | zero =>
    intro s t c h hct
    exact ⟨h.1, h.2.1, Nat.le_trans h.2.2 hct⟩
  | succ n ih =>
    intro s t c h hct
    have hslack : RLInv s t := ⟨h.1, h.2.1, Nat.le_trans h.2.2 hct⟩
    unfold RateLimiter.processQueueAux
    split
    · exact hslack
    next a rest hq =>
      split
      · exact hslack
      · split
        · exact hslack
        · have hrest : RLInv { s with queue := rest } c := h
          have hatt := RateLimiter.attempt_inv { s with queue := rest } a t c hrest hct
          simp only
          split
          · exact ih _ t t hatt (Nat.le_refl t)
          · exact hatt

theorem RateLimiter.processQueueAux_minInterval :
    ∀ (fuel : Nat) (s : RateLimiter α) (t : Nat),
      (RateLimiter.processQueueAux fuel s t).1.minInterval = s.minInterval := by
  intro fuel
  induction fuel with
  | zero => intro s t; rfl
  | succ n ih =>
    intro s t
    unfold RateLimiter.processQueueAux
    split
    · rfl
    next a rest hq =>
      split
      · rfl
      · split
        · rfl
        · simp only
          split
          · rw [ih, RateLimiter.attempt_minInterval]
          · rw [RateLimiter.attempt_minInterval]

theorem rlStep_inv (s : RateLimiter α) (ev : RLEvent α) (c : Nat)
    (h : RLInv s c) (hct : c ≤ ev.time) : RLInv (rlStep s ev) ev.time := by
  cases ev with
  | acquire a t =>
    exact RateLimiter.processQueueAux_inv _ _ t c h hct
  | release t =>
    exact RateLimiter.processQueueAux_inv _ _ t c h hct
  | timer t =>
    exact RateLimiter.processQueueAux_inv _ _ t c h hct

theorem rlStep_minInterval (s : RateLimiter α) (ev : RLEvent α) :
    (rlStep s ev).minInterval = s.minInterval := by
  cases ev <;>
    simp only [rlStep, RateLimiter.acquire, RateLimiter.release, RateLimiter.processQueue] <;>
    rw [RateLimiter.processQueueAux_minInterval]

theorem rlRun_minInterval :
    ∀ (events : List (RLEvent α)) (s : RateLimiter α),
      (rlRun s events).minInterval = s.minInterval := by
  intro events
  induction events with
  | nil => intro s; rfl
  | cons ev rest ih =>
    intro s
    show (rlRun (rlStep s ev) rest).minInterval = s.minInterval
    rw [ih, rlStep_minInterval]

theorem rlRun_inv :
    ∀ (events : List (RLEvent α)) (s : RateLimiter α) (c : Nat),
      RLInv s c → timesOk c events = true → ∃ c2, RLInv (rlRun s events) c2 := by
  intro events
  induction events with
  | nil => intro s c h _; exact ⟨c, h⟩
  | cons ev rest ih =>
    intro s c h ht
    rw [timesOk, Bool.and_eq_true, decide_eq_true_eq] at ht
    exact ih (rlStep s ev) ev.time (rlStep_inv s ev c h ht.1) ht.2

/-- C2: for a rate limiter constructed with `minIntervalMs = I`, along any
interleaving of `acquire`/`release`/timer events with monotone wall-clock
timestamps, the recorded granted starts are pairwise at least `I` apart:
consecutive grant timestamps differ by at least `I`.  The spacing binds
each grant to the previous *granted start* (`lastStart` is written only
when a grant happens), not to any `release` — the trace may contain
arbitrarily many releases between two grants without weakening the bound. -/
theorem rateLimiter_grant_spacing (K I : Nat) (events : List (RLEvent Nat))
    (h : timesOk 0 events = true) :
    Spaced I (rlRun (RateLimiter.init Nat K I) events).grants := by
  have h0 : RLInv (RateLimiter.init Nat K I) 0 := ⟨List.chain'_nil, rfl, Nat.le_refl 0⟩
  obtain ⟨c2, hinv⟩ := rlRun_inv events (RateLimiter.init Nat K I) 0 h0 h
  have hmin : (rlRun (RateLimiter.init Nat K I) events).minInterval = I := by
    rw [rlRun_minInterval]
    exact Nat.max_eq_right (Nat.zero_le I)
  have hsp := hinv.1
  rwa [hmin] at hsp

/-- Witness for C2 on a concrete monotone trace with an interleaved
release: the two grants land at 60 and 200, at least 50 apart. -/
theorem rateLimiter_grant_spacing_witness :
    timesOk 0 [RLEvent.acquire (0 : Nat) 60, RLEvent.acquire 1 70,
      RLEvent.release 90, RLEvent.timer 200] = true
    ∧ Spaced 50 (rlRun (RateLimiter.init Nat 2 50)
        [RLEvent.acquire (0 : Nat) 60, RLEvent.acquire 1 70,
         RLEvent.release 90, RLEvent.timer 200]).grants :=
  ⟨by decide, rateLimiter_grant_spacing 2 50 _ (by decide)⟩

/-!
## Engine basics
-/

theorem Engine.snapshot_eq (e : Engine) : e.snapshot = e.grid := by
  show e.grid.map (fun row => row.map (fun c => c)) = e.grid
  simp

theorem applyGrantsFrom_length (g : List Nat) :
    ∀ (ts : List CellTask) (i0 : Nat), (applyGrantsFrom g i0 ts).length = ts.length
  | [], _ => rfl
  | task :: rest, i0 => by
    show (applyGrantsFrom g (i0 + 1) rest).length + 1 = rest.length + 1
    rw [applyGrantsFrom_length g rest (i0 + 1)]

theorem applyGrants_length (ts : List CellTask) (g : List Nat) :
    (applyGrants ts g).length = ts.length :=
  applyGrantsFrom_length g ts 0

theorem applyGrantsFrom_get? (g : List Nat) :
    ∀ (ts : List CellTask) (i0 i : Nat),
      (applyGrantsFrom g i0 ts).get? i = (ts.get? i).map (fun task =>
        if (i0 + i) ∈ g ∧ task.phase = Phase.pending
        then { task with phase := Phase.granted } else task)
  | [], i0, i => by simp [applyGrantsFrom]
  | task :: rest, i0, 0 => by simp [applyGrantsFrom]
  | task :: rest, i0, i + 1 => by
    show (applyGrantsFrom g (i0 + 1) rest).get? i = _
    rw [applyGrantsFrom_get? g rest (i0 + 1) i]
    have h : i0 + 1 + i = i0 + (i + 1) := by omega
    rw [h]
    rfl

theorem applyGrants_get? (ts : List CellTask) (g : List Nat) (i : Nat) :
    (applyGrants ts g).get? i = (ts.get? i).map (fun task =>
      if i ∈ g ∧ task.phase = Phase.pending
      then { task with phase := Phase.granted } else task) := by
  rw [applyGrants, applyGrantsFrom_get? g ts 0 i]
  rw [Nat.zero_add]

/-!
## Claim C10: unconfigured helper rejects every single-cell update
-/

/-- C10: if the engine's OpenAI helper has never been installed
(`helper` is still null, as after construction), every
`updateSingleCell` request returns with the state unchanged — no task is
launched, no external call made, grid and in-flight set untouched —
regardless of the coordinate, the in-progress flag, or the in-flight set. -/
theorem helperless_single_cell_noop (e : Engine) (cx cy : Int) (prompt : String)
    (t : Nat) (hh : e.helper = false) :
    Engine.updateSingleCell e cx cy prompt t = e := by
  unfold Engine.updateSingleCell
  rw [hh]
  cases e.generationInProgress <;> simp

/-- Witness for C10: a freshly constructed 4×4 engine (helper null)
rejects an in-bounds update at `(2, 1)`. -/
theorem helperless_single_cell_noop_witness :
    (Engine.init 4 4).helper = false
    ∧ Engine.updateSingleCell (Engine.init 4 4) 2 1 "p" 100 = Engine.init 4 4 :=
  ⟨rfl, helperless_single_cell_noop (Engine.init 4 4) 2 1 "p" 100 rfl⟩

/-!
## Claim C7: when single-cell updates are rejected
-/

/-- Counterexample to C7 as stated: on a freshly constructed 3×3 engine
(no step in progress, coordinate `(1, 1)` in bounds, nothing in flight)
an `updateSingleCell` request is nonetheless rejected as a silent no-op,
because the OpenAI helper is not configured — a rejection cause outside
the claim's "exactly when" list. -/
theorem singleCell_rejected_without_listed_cause :
    Engine.updateSingleCell (Engine.init 3 3) 1 1 "p" 100 = Engine.init 3 3
    ∧ (Engine.init 3 3).generationInProgress = false
    ∧ ¬((1 : Int) < 0 ∨ ((Engine.init 3 3).rows : Int) ≤ 1 ∨ (1 : Int) < 0 ∨
        ((Engine.init 3 3).cols : Int) ≤ 1)
    ∧ cellKey 1 1 ∉ (Engine.init 3 3).loadingCells := by
  refine ⟨?_, rfl, by decide, by decide⟩
  decide

/-- C7 (amended): provided the OpenAI helper has been configured, a
single-cell update request is rejected as a silent no-op (state returned
unchanged, no task launched) exactly when a full generation step is in
progress, or the target coordinate is out of bounds, or the coordinate is
currently in the in-flight set.  (The in-flight mark is added only after
admission is granted and removed when the task finishes, so a second
update for the same coordinate is rejected precisely while the first is
between those two points.) -/
theorem singleCell_reject_iff (e : Engine) (cx cy : Int) (prompt : String) (t : Nat)
    (hh : e.helper = true) :
    Engine.updateSingleCell e cx cy prompt t = e ↔
      (e.generationInProgress = true ∨ cy < 0 ∨ (e.rows : Int) ≤ cy ∨ cx < 0 ∨
        (e.cols : Int) ≤ cx ∨ cellKey cx cy ∈ e.loadingCells) := by
  unfold Engine.updateSingleCell
  rw [hh]
  constructor
  · intro hEq
    by_contra hn
    push_neg at hn
    obtain ⟨hn1, hn2, hn3, hn4, hn5, hn6⟩ := hn
    have hn1f : e.generationInProgress = false := by
      cases hflag : e.generationInProgress
      · rfl
      · exact absurd hflag hn1
    have hb : ¬(cy < 0 ∨ (e.rows : Int) ≤ cy ∨ cx < 0 ∨ (e.cols : Int) ≤ cx) := by
      push_neg
      exact ⟨hn2, hn3, hn4, hn5⟩
    rw [hn1f] at hEq
    simp only [Bool.false_eq_true, if_false, Bool.not_true, if_neg hb, if_neg hn6] at hEq
    have hlen := congrArg (fun s => s.tasks.length) hEq
    simp only [applyGrants_length, List.length_append, List.length_cons,
      List.length_nil] at hlen
    omega
  · intro hcond
    by_cases h1 : e.generationInProgress = true
    · rw [if_pos h1]
    · rw [if_neg h1]
      rw [if_neg (show ¬((!true) = true) by decide)]
      by_cases h3 : (cy < 0 ∨ (e.rows : Int) ≤ cy ∨ cx < 0 ∨ (e.cols : Int) ≤ cx)
      · rw [if_pos h3]
      · rw [if_neg h3]
        have h4 : cellKey cx cy ∈ e.loadingCells := by
          rcases hcond with h | h | h | h | h | h
          · exact absurd h h1
          · exact absurd (Or.inl h) h3
          · exact absurd (Or.inr (Or.inl h)) h3
          · exact absurd (Or.inr (Or.inr (Or.inl h))) h3
          · exact absurd (Or.inr (Or.inr (Or.inr h))) h3
          · exact h
        show (if cellKey cx cy ∈ e.loadingCells then e else _) = e
        rw [if_pos h4]

/-- Witness for the amended C7 on a 3×3 engine with an installed helper:
an in-bounds, idle, not-in-flight request is not rejected, and the
right-hand side of the equivalence is indeed false there. -/
theorem singleCell_reject_iff_witness :
    (Engine.updateSingleCell (Engine.init 3 3).setApiKey 1 1 "p" 100
        = (Engine.init 3 3).setApiKey ↔
      ((Engine.init 3 3).setApiKey.generationInProgress = true ∨ (1 : Int) < 0 ∨
        (((Engine.init 3 3).setApiKey.rows : Nat) : Int) ≤ 1 ∨ (1 : Int) < 0 ∨
        (((Engine.init 3 3).setApiKey.cols : Nat) : Int) ≤ 1 ∨
        cellKey 1 1 ∈ (Engine.init 3 3).setApiKey.loadingCells)) :=
  singleCell_reject_iff (Engine.init 3 3).setApiKey 1 1 "p" 100 rfl

/-!
## Claim C5: toroidal neighbor resolution
-/

theorem emod_wrap_sub_one (n v : Int) (h0 : 0 ≤ v) (h : v < n) :
    (v - 1 + n) % n = if v = 0 then n - 1 else v - 1 := by
  by_cases hv : v = 0
  · subst hv
    rw [if_pos rfl]
    rw [show (0 - 1 + n : Int) = n - 1 by ring]
    exact Int.emod_eq_of_lt (by omega) (by omega)
  · rw [if_neg hv]
    rw [show (v - 1 + n : Int) = v - 1 + n * 1 by ring]
    rw [Int.add_mul_emod_self_left]
    exact Int.emod_eq_of_lt (by omega) (by omega)

theorem emod_wrap_add_one (n v : Int) (h0 : 0 ≤ v) (h : v < n) :
    (v + 1) % n = if v = n - 1 then 0 else v + 1 := by
  by_cases hv : v = n - 1
  · rw [if_pos hv, hv]
    rw [show (n - 1 + 1 : Int) = n by ring]
    exact Int.emod_self
  · rw [if_neg hv]
    exact Int.emod_eq_of_lt (by omega) (by omega)

/-- C5: for any in-range cell `(x, y)` of an `cols × rows` grid, the
neighbor indices the engine computes are exactly the modular expressions
`(i - 1 + n) % n` / `(i + 1) % n`, applied independently per axis (a
4-neighborhood); they wrap — the row above `0` is `rows - 1`, the row
below `rows - 1` is `0`, and likewise for columns; and concretely on a
3×3 grid cell `(0, 0)` resolves north `(0, 2)`, south `(0, 1)`,
west `(2, 0)`, east `(1, 0)`, as witnessed by the snapshot reads. -/
theorem toroidal_neighbor_resolution (rows cols : Nat) (x y : Int)
    (hx0 : 0 ≤ x) (hx : x < (cols : Int)) (hy0 : 0 ≤ y) (hy : y < (rows : Int)) :
    ((computeIdx rows cols x y).upY = (y - 1 + (rows : Int)) % (rows : Int)
      ∧ (computeIdx rows cols x y).downY = (y + 1) % (rows : Int)
      ∧ (computeIdx rows cols x y).leftX = (x - 1 + (cols : Int)) % (cols : Int)
      ∧ (computeIdx rows cols x y).rightX = (x + 1) % (cols : Int))
    ∧ ((computeIdx rows cols x y).upY = if y = 0 then (rows : Int) - 1 else y - 1)
    ∧ ((computeIdx rows cols x y).downY = if y = (rows : Int) - 1 then 0 else y + 1)
    ∧ ((computeIdx rows cols x y).leftX = if x = 0 then (cols : Int) - 1 else x - 1)
    ∧ ((computeIdx rows cols x y).rightX = if x = (cols : Int) - 1 then 0 else x + 1)
    ∧ computeIdx 3 3 0 0 = { upY := 2, downY := 1, leftX := 2, rightX := 1 }
    ∧ kernelArgsOf gridThree (computeIdx 3 3 0 0) 0 0 "p"
        = some { prompt := "p", top := { text := "0,2" }, bottom := { text := "0,1" }
               , left := { text := "2,0" }, right := { text := "1,0" }
               , current := { text := "0,0" } } := by
  refine ⟨⟨rfl, rfl, rfl, rfl⟩, ?_, ?_, ?_, ?_, by decide, by decide⟩
  · exact emod_wrap_sub_one _ y hy0 hy
  · exact emod_wrap_add_one _ y hy0 hy
  · exact emod_wrap_sub_one _ x hx0 hx
  · exact emod_wrap_add_one _ x hx0 hx

/-- Witness for C5 at cell `(0, 0)` of a 4×4 grid: the north index is
`(0 - 1 + 4) % 4`. -/
theorem toroidal_neighbor_resolution_witness :
    (computeIdx 4 4 0 0).upY = ((0 : Int) - 1 + ((4 : Nat) : Int)) % ((4 : Nat) : Int) :=
  (toroidal_neighbor_resolution 4 4 0 0 (by decide) (by decide) (by decide)
    (by decide)).1.1

/-!
## Claim C8: resize preserves the overlapping region
-/

theorem resize_grid_get (e : Engine) (newSize : Nat)
    (hne : ¬(newSize = e.cols ∧ newSize = e.rows)) (x y : Nat)
    (hx : x < newSize) (hy : y < newSize) :
    cellTextAt (e.resize newSize).grid x y =
      if y < min e.rows newSize ∧ x < min e.cols newSize
      then cellTextAt e.grid x y else "" := by
  unfold Engine.resize
  rw [if_neg hne]
  show cellTextAt ((List.range newSize).map _) x y = _
  unfold cellTextAt
  rw [List.get?_map, List.get?_range hy]
  simp only [Option.map_some', Option.some_bind]
  rw [List.get?_map, List.get?_range hx]
  simp only [Option.map_some']
  split_ifs with h
  · rfl
  · rfl

/-- C8: when an engine whose grid is `old × old` is resized to
`newSize × newSize`, every cell of the overlapping region
`[0, min(old,newSize)) × [0, min(old,newSize))` keeps its prior text
exactly, and every cell of the new grid outside that region has empty
text. -/
theorem resize_content_preservation (e : Engine) (newSize : Nat)
    (hsq : e.cols = e.rows) :
    (∀ x y : Nat, x < min e.cols newSize → y < min e.cols newSize →
      cellTextAt (e.resize newSize).grid x y = cellTextAt e.grid x y)
    ∧ (∀ x y : Nat, x < newSize → y < newSize →
        (min e.cols newSize ≤ x ∨ min e.cols newSize ≤ y) →
        cellTextAt (e.resize newSize).grid x y = "") := by
  by_cases hne : newSize = e.cols ∧ newSize = e.rows
  · constructor
    · intro x y hx hy
      unfold Engine.resize
      rw [if_pos hne]
    · intro x y hx hy hout
      exfalso
      omega
  · constructor
    · intro x y hx hy
      rw [resize_grid_get e newSize hne x y (by omega) (by omega)]
      rw [if_pos (by constructor <;> omega)]
    · intro x y hx hy hout
      rw [resize_grid_get e newSize hne x y hx hy]
      rw [if_neg (by omega)]

/-- Witness for C8: shrinking the 5×5 engine to 3×3 keeps cell `(2, 2)`
(text `2;2`), and growing the 3×3 engine to 5×5 leaves border cell
`(4, 4)` empty. -/
theorem resize_content_preservation_witness :
    cellTextAt (engineFive.resize 3).grid 2 2 = cellTextAt engineFive.grid 2 2
    ∧ cellTextAt engineFive.grid 2 2 = "2;2"
    ∧ cellTextAt (engineThree.resize 5).grid 4 4 = "" :=
  ⟨(resize_content_preservation engineFive 3 rfl).1 2 2 (by decide) (by decide),
   by decide,
   (resize_content_preservation engineThree 5 rfl).2 4 4 (by decide) (by decide)
     (by decide)⟩

/-!
## Claim C6: re-entrant `nextGeneration` is not rejected
-/

theorem launchOne_generationInProgress (acc : Engine) (prompt : String) (snap : Grid)
    (c : Int × Int) (t : Nat) :
    (Engine.launchOne acc prompt snap c t).generationInProgress =
      acc.generationInProgress := rfl

theorem launchOne_tasks_length (acc : Engine) (prompt : String) (snap : Grid)
    (c : Int × Int) (t : Nat) :
    (Engine.launchOne acc prompt snap c t).tasks.length = acc.tasks.length + 1 := by
  show (applyGrants (acc.tasks ++ [_]) _).length = acc.tasks.length + 1
  rw [applyGrants_length, List.length_append]
  rfl

theorem launchFold_generationInProgress (prompt : String) (snap : Grid) (t : Nat) :
    ∀ (order : List (Int × Int)) (acc : Engine),
      (order.foldl (fun a c => Engine.launchOne a prompt snap c t) acc).generationInProgress
        = acc.generationInProgress
  | [], _ => rfl
  | c :: rest, acc => by
    show (rest.foldl _ (Engine.launchOne acc prompt snap c t)).generationInProgress = _
    rw [launchFold_generationInProgress prompt snap t rest (Engine.launchOne acc prompt snap c t)]
    rfl

theorem launchFold_tasks_length (prompt : String) (snap : Grid) (t : Nat) :
    ∀ (order : List (Int × Int)) (acc : Engine),
      (order.foldl (fun a c => Engine.launchOne a prompt snap c t) acc).tasks.length
        = acc.tasks.length + order.length
  | [], _ => rfl
  | c :: rest, acc => by
    show (rest.foldl _ (Engine.launchOne acc prompt snap c t)).tasks.length = _
    rw [launchFold_tasks_length prompt snap t rest (Engine.launchOne acc prompt snap c t)]
    rw [launchOne_tasks_length]
    simp only [List.length_cons]
    omega

/-- Counterexample to C6: on a 1×1 engine, calling `nextGeneration` again
while the first step's task is still in flight (the flag is set, fourth
conjunct) is not a no-op — the run with the re-entrant call ends with
grid text `B` (written by the second step's task), while the same run
without it ends with `A`, so the second call has an observable effect on
grid state beyond the already-running step. -/
theorem nextGeneration_reentry_observable :
    (erun engineOneCell reentryTrace).grid = [[{ text := "B" }]]
    ∧ (erun engineOneCell soloTrace).grid = [[{ text := "A" }]]
    ∧ (erun engineOneCell reentryTrace).grid ≠ (erun engineOneCell soloTrace).grid
    ∧ (erun engineOneCell [EEvent.runStep "p" [(0, 0)] 100,
        EEvent.cont 0 100]).generationInProgress = true :=
  ⟨by decide, by decide, by decide, by decide⟩

/-- C6 (amended): the engine applies no in-progress check to
`nextGeneration`: a call made while a step is already running launches a
full second step exactly as if the engine were idle — the launch result
does not depend on the prior value of the in-progress flag, one task per
coordinate of the order is launched unconditionally, and the flag is left
set.  The flag gates only `updateSingleCell`, which is rejected while it
is set. -/
theorem nextGeneration_ignores_inProgress_flag (e : Engine) (prompt : String)
    (order : List (Int × Int)) (t : Nat) (cx cy : Int) :
    Engine.nextGenerationLaunch { e with generationInProgress := true } prompt order t
      = Engine.nextGenerationLaunch { e with generationInProgress := false } prompt order t
    ∧ (Engine.nextGenerationLaunch e prompt order t).tasks.length
        = e.tasks.length + order.length
    ∧ (Engine.nextGenerationLaunch e prompt order t).generationInProgress = true
    ∧ Engine.updateSingleCell { e with generationInProgress := true } cx cy prompt t
        = { e with generationInProgress := true } := by
  refine ⟨rfl, ?_, ?_, ?_⟩
  · exact launchFold_tasks_length prompt _ t order _
  · exact launchFold_generationInProgress prompt _ t order _
  · simp [Engine.updateSingleCell]

/-!
## Claim C9: a resize under an in-flight task
-/

/-- C9, evaluated at the failing input: on the 2×2 engine, a step is
launched, the task for `(1, 1)` starts its kernel call, the grid is
resized to 1×1, and the call then succeeds.  The write
`grid[1][1].text = ...` finds no such coordinate: in the source this is a
thrown `TypeError`, so the task's promise is rejected (`faulted`), the
step's `Promise.all` barrier is rejected rather than resolving, and
`generationInProgress` is never cleared — every later `updateSingleCell`
is rejected.  The value is not silently dropped with the barrier intact,
as the claim states; only the grid itself is left unchanged. -/
theorem resize_inflight_write_rejects_step :
    (shrunkState.tasks.get? 0).map CellTask.phase = some Phase.faulted
    ∧ (shrunkState.steps.get? 0).map StepRec.status = some StepStatus.rejected
    ∧ shrunkState.generationInProgress = true
    ∧ shrunkState.grid = [[{ text := "a" }]]
    ∧ estep shrunkState (EEvent.updateCell 0 0 "q" 500) = shrunkState :=
  ⟨by decide, by decide, by decide, by decide, by decide⟩

/-!
## Claim C3: snapshot isolation of a generation step
-/

theorem applyGrants_pres (P : CellTask → Prop)
    (hP : ∀ task, P task → P { task with phase := Phase.granted })
    (ts : List CellTask) (g : List Nat)
    (h : ∀ i task, ts.get? i = some task → P task) :
    ∀ i task, (applyGrants ts g).get? i = some task → P task := by
  intro i task hget
  rw [applyGrants_get?] at hget
  cases hts : ts.get? i with
  | none => rw [hts] at hget; exact absurd hget (by simp)
  | some task0 =>
    rw [hts] at hget
    simp only [Option.map_some'] at hget
    by_cases hc : i ∈ g ∧ task0.phase = Phase.pending
    · rw [if_pos hc] at hget
      rw [← Option.some.inj hget]
      exact hP task0 (h i task0 hts)
    · rw [if_neg hc] at hget
      rw [← Option.some.inj hget]
      exact h i task0 hts

theorem setTask_pres (P : CellTask → Prop) (ts : List CellTask) (i : Nat)
    (task' : CellTask) (hP : P task')
    (h : ∀ j task, ts.get? j = some task → P task) :
    ∀ j task, (setTask ts i task').get? j = some task → P task := by
  intro j task hget
  rw [setTask, List.get?_set] at hget
  by_cases hij : i = j
  · rw [if_pos hij] at hget
    cases hts : ts.get? j with
    | none => rw [hts] at hget; exact absurd hget (by simp)
    | some task0 =>
      rw [hts] at hget
      have hinj : task' = task := by simpa using hget
      rw [← hinj]
      exact hP
  · rw [if_neg hij] at hget
    exact h j task hget

theorem snoc_pres (P : CellTask → Prop) (ts : List CellTask) (task' : CellTask)
    (hP : P task') (h : ∀ j task, ts.get? j = some task → P task) :
    ∀ j task, (ts ++ [task']).get? j = some task → P task := by
  intro j task hget
  by_cases hj : j < ts.length
  · rw [List.get?_append hj] at hget
    exact h j task hget
  · rcases Nat.eq_or_lt_of_le (Nat.le_of_not_lt hj) with heq | hlt
    · rw [← heq, List.get?_concat_length] at hget
      cases Option.some.inj hget
      exact hP
    · rw [List.get?_len_le (by simp [Nat.succ_le_of_lt hlt])] at hget
      exact absurd hget (by simp)

theorem finishTask_rows (e : Engine) (i : Nat) (task : CellTask) (text : String)
    (outc : Except String String) (t : Nat) :
    (Engine.finishTask e i task text outc t).rows = e.rows := by
  unfold Engine.finishTask
  split <;> rfl

theorem finishTask_cols (e : Engine) (i : Nat) (task : CellTask) (text : String)
    (outc : Except String String) (t : Nat) :
    (Engine.finishTask e i task text outc t).cols = e.cols := by
  unfold Engine.finishTask
  split <;> rfl

theorem finishTask_tasks_pres (P : CellTask → Prop)
    (hgr : ∀ task1, P task1 → P { task1 with phase := Phase.granted })
    (e : Engine) (i : Nat) (task : CellTask) (text : String)
    (outc : Except String String) (t : Nat)
    (hP1 : P { task with phase := Phase.done, outcome := some outc })
    (hP2 : P { task with phase := Phase.faulted, outcome := some outc })
    (h : ∀ j task1, e.tasks.get? j = some task1 → P task1) :
    ∀ j task1, (Engine.finishTask e i task text outc t).tasks.get? j = some task1 →
      P task1 := by
  unfold Engine.finishTask
  split
  · exact applyGrants_pres P hgr _ _ (setTask_pres P _ i _ hP1 h)
  · exact applyGrants_pres P hgr _ _ (setTask_pres P _ i _ hP2 h)

theorem finishTask_snapInv (g0 : Grid) (r0 c0 : Nat) (e : Engine) (i : Nat)
    (task : CellTask) (text : String) (outc : Except String String) (t : Nat)
    (h : SnapInv g0 r0 c0 e) (htask : TaskSnapOk g0 r0 c0 task) :
    SnapInv g0 r0 c0 (Engine.finishTask e i task text outc t) := by
  constructor
  · rw [finishTask_rows]; exact h.rows_eq
  · rw [finishTask_cols]; exact h.cols_eq
  · exact finishTask_tasks_pres (TaskSnapOk g0 r0 c0) (fun t1 h1 => h1) e i task text
      outc t htask htask h.tasks_ok

theorem contIdx_none (e : Engine) (task : CellTask) (hpre : task.precomputed = none) :
    contIdx e task = computeIdx e.rows e.cols task.x task.y := by
  unfold contIdx
  rw [hpre]

theorem contBody_snapInv (g0 : Grid) (r0 c0 : Nat) (e : Engine) (i : Nat)
    (task : CellTask) (t : Nat) (h : SnapInv g0 r0 c0 e)
    (hok : TaskSnapOk g0 r0 c0 task) :
    SnapInv g0 r0 c0 (e.contBody i task t) := by
  unfold Engine.contBody
  split
  next a heq =>
    constructor
    · exact h.rows_eq
    · exact h.cols_eq
    · exact setTask_pres (TaskSnapOk g0 r0 c0) e.tasks i _
        ⟨hok.1, hok.2.1, fun a' ha' => by
          rw [← Option.some.inj ha']
          rw [← hok.1, ← h.rows_eq, ← h.cols_eq]
          rw [contIdx_none e task hok.2.1] at heq
          exact heq⟩
        h.tasks_ok
  next heq =>
    exact finishTask_snapInv g0 r0 c0 e i task _ _ t h hok

theorem contTask_snapInv (g0 : Grid) (r0 c0 : Nat) (s : Engine) (i t : Nat)
    (h : SnapInv g0 r0 c0 s) : SnapInv g0 r0 c0 (s.contTask i t) := by
  unfold Engine.contTask
  split
  · exact h
  next task hget =>
    by_cases hph : task.phase = Phase.granted
    · rw [if_pos hph]
      exact contBody_snapInv g0 r0 c0 _ i task t
        ⟨h.rows_eq, h.cols_eq, h.tasks_ok⟩ (h.tasks_ok i task hget)
    · rw [if_neg hph]
      exact h

theorem resolveTask_snapInv (g0 : Grid) (r0 c0 : Nat) (s : Engine) (i : Nat)
    (outcome : Except String String) (t : Nat) (h : SnapInv g0 r0 c0 s) :
    SnapInv g0 r0 c0 (s.resolveTask i outcome t) := by
  unfold Engine.resolveTask
  split
  · exact h
  next task hget =>
    by_cases hph : task.phase = Phase.running
    · rw [if_pos hph]
      exact finishTask_snapInv g0 r0 c0 s i task _ outcome t h (h.tasks_ok i task hget)
    · rw [if_neg hph]
      exact h

theorem timerFire_snapInv (g0 : Grid) (r0 c0 : Nat) (s : Engine) (t : Nat)
    (h : SnapInv g0 r0 c0 s) : SnapInv g0 r0 c0 (s.timerFire t) := by
  constructor
  · exact h.rows_eq
  · exact h.cols_eq
  · exact applyGrants_pres _ (fun t1 h1 => h1) _ _ h.tasks_ok

theorem barrierCheck_fields (s : Engine) (k : Nat) :
    (Engine.barrierCheck s k).rows = s.rows ∧ (Engine.barrierCheck s k).cols = s.cols ∧
      (Engine.barrierCheck s k).tasks = s.tasks ∧
      (Engine.barrierCheck s k).grid = s.grid := by
  unfold Engine.barrierCheck
  split
  · exact ⟨rfl, rfl, rfl, rfl⟩
  · split_ifs <;> exact ⟨rfl, rfl, rfl, rfl⟩

theorem barrierCheck_snapInv (g0 : Grid) (r0 c0 : Nat) (s : Engine) (k : Nat)
    (h : SnapInv g0 r0 c0 s) : SnapInv g0 r0 c0 (s.barrierCheck k) := by
  obtain ⟨h1, h2, h3, _⟩ := barrierCheck_fields s k
  constructor
  · rw [h1]; exact h.rows_eq
  · rw [h2]; exact h.cols_eq
  · rw [h3]; exact h.tasks_ok

theorem snapInv_estep (g0 : Grid) (r0 c0 : Nat) (s : Engine) (ev : EEvent)
    (hev : stepInternal ev = true) (h : SnapInv g0 r0 c0 s) :
    SnapInv g0 r0 c0 (estep s ev) := by
  cases ev with
  | runStep prompt order t => exact absurd hev (by simp [stepInternal])
  | updateCell cx cy prompt t => exact absurd hev (by simp [stepInternal])
  | setKey => exact absurd hev (by simp [stepInternal])
  | resizeTo n => exact absurd hev (by simp [stepInternal])
  | cont i t => exact contTask_snapInv g0 r0 c0 s i t h
  | settle i outcome t => exact resolveTask_snapInv g0 r0 c0 s i outcome t h
  | timer t => exact timerFire_snapInv g0 r0 c0 s t h
  | barrier k => exact barrierCheck_snapInv g0 r0 c0 s k h

theorem snapInv_erun (g0 : Grid) (r0 c0 : Nat) :
    ∀ (tr : List EEvent) (s : Engine), tr.all stepInternal = true →
      SnapInv g0 r0 c0 s → SnapInv g0 r0 c0 (erun s tr)
  | [], _, _, h => h
  | ev :: rest, s, hall, h => by
    rw [List.all_cons, Bool.and_eq_true] at hall
    exact snapInv_erun g0 r0 c0 rest (estep s ev) hall.2
      (snapInv_estep g0 r0 c0 s ev hall.1 h)

theorem launchOne_snapInv (g0 : Grid) (r0 c0 : Nat) (acc : Engine) (prompt : String)
    (snap : Grid) (c : Int × Int) (t : Nat) (hsnap : snap = g0)
    (h : SnapInv g0 r0 c0 acc) :
    SnapInv g0 r0 c0 (Engine.launchOne acc prompt snap c t) := by
  constructor
  · exact h.rows_eq
  · exact h.cols_eq
  · exact applyGrants_pres (TaskSnapOk g0 r0 c0) (fun t1 h1 => h1) _ _
      (snoc_pres (TaskSnapOk g0 r0 c0) acc.tasks _
        ⟨hsnap, rfl, fun a ha => absurd ha (by simp)⟩ h.tasks_ok)

theorem launchFold_snapInv (g0 : Grid) (r0 c0 : Nat) (prompt : String) (snap : Grid)
    (t : Nat) (hsnap : snap = g0) :
    ∀ (order : List (Int × Int)) (acc : Engine), SnapInv g0 r0 c0 acc →
      SnapInv g0 r0 c0 (order.foldl (fun a c => Engine.launchOne a prompt snap c t) acc)
  | [], _, h => h
  | c :: rest, acc, h => by
    show SnapInv g0 r0 c0 (rest.foldl _ (Engine.launchOne acc prompt snap c t))
    exact launchFold_snapInv g0 r0 c0 prompt snap t hsnap rest _
      (launchOne_snapInv g0 r0 c0 acc prompt snap c t hsnap h)

theorem launch_snapInv (e : Engine) (prompt : String) (order : List (Int × Int))
    (t : Nat) (hT : e.tasks = []) :
    SnapInv e.grid e.rows e.cols (Engine.nextGenerationLaunch e prompt order t) := by
  have base : SnapInv e.grid e.rows e.cols { e with generationInProgress := true } := by
    constructor
    · rfl
    · rfl
    · intro i task hget
      rw [show ({ e with generationInProgress := true } : Engine).tasks = e.tasks
        from rfl, hT] at hget
      exact absurd hget (by simp)
  have hf := launchFold_snapInv e.grid e.rows e.cols prompt
    (Engine.snapshot { e with generationInProgress := true }) t
    (Engine.snapshot_eq { e with generationInProgress := true }) order
    { e with generationInProgress := true } base
  exact ⟨hf.rows_eq, hf.cols_eq, hf.tasks_ok⟩

/-- C3: for every generation step launched by `runStep` on an engine with
no prior tasks, and every following sequence of step-internal events —
task continuations, kernel settlements (which write other cells of the
same step into the live grid), limiter timers, barrier checks — every
task of the step still holds the step-start grid as its snapshot (since
the trace is arbitrary, this holds at every point of every run: the
snapshot is never mutated), and whenever the task has invoked the
external collaborator, the current-cell and neighbor texts it passed are
exactly the reads of that step-start grid. -/
theorem step_snapshot_isolation (e : Engine) (prompt : String)
    (order : List (Int × Int)) (t0 : Nat) (trace : List EEvent)
    (hT : e.tasks = []) (hs : trace.all stepInternal = true) :
    ∀ i task,
      (erun e (EEvent.runStep prompt order t0 :: trace)).tasks.get? i = some task →
        task.snap = e.grid
        ∧ ∀ a, task.args = some a →
            kernelArgsOf e.grid (computeIdx e.rows e.cols task.x task.y)
              task.x task.y task.prompt = some a := by
  intro i task hget
  have h0 : SnapInv e.grid e.rows e.cols (estep e (EEvent.runStep prompt order t0)) :=
    launch_snapInv e prompt order t0 hT
  have hinv : SnapInv e.grid e.rows e.cols
      (erun (estep e (EEvent.runStep prompt order t0)) trace) :=
    snapInv_erun e.grid e.rows e.cols trace _ hs h0
  have hok := hinv.tasks_ok i task hget
  exact ⟨hok.1, hok.2.2⟩

/-- Witness for C3: on the 2×2 engine, after a step launch and the first
task's continuation, task 0 (cell `(0, 0)`) holds the step-start grid as
its snapshot and passed exactly its neighbor reads to the kernel. -/
theorem step_snapshot_isolation_witness :
    ((erun engineTwoByTwo [EEvent.runStep "p" [(0, 0), (1, 0), (0, 1), (1, 1)] 100,
        EEvent.cont 0 100]).tasks.get? 0 =
      some { x := 0, y := 0
           , snap := [[{ text := "a" }, { text := "b" }], [{ text := "c" }, { text := "d" }]]
           , prompt := "p", precomputed := none, phase := Phase.running
           , args := some { prompt := "p", top := { text := "c" }, bottom := { text := "c" }
                          , left := { text := "b" }, right := { text := "b" }
                          , current := { text := "a" } }
           , outcome := none })
    ∧ ([[{ text := "a" }, { text := "b" }], [{ text := "c" }, { text := "d" }]] : Grid)
        = engineTwoByTwo.grid
    ∧ kernelArgsOf engineTwoByTwo.grid
        (computeIdx engineTwoByTwo.rows engineTwoByTwo.cols 0 0) 0 0 "p"
        = some { prompt := "p", top := { text := "c" }, bottom := { text := "c" }
               , left := { text := "b" }, right := { text := "b" }
               , current := { text := "a" } } := by
  refine ⟨by decide, ?_, ?_⟩
  · exact (step_snapshot_isolation engineTwoByTwo "p" [(0, 0), (1, 0), (0, 1), (1, 1)] 100
      [EEvent.cont 0 100] rfl (by decide) 0
      { x := 0, y := 0
      , snap := [[{ text := "a" }, { text := "b" }], [{ text := "c" }, { text := "d" }]]
      , prompt := "p", precomputed := none, phase := Phase.running
      , args := some { prompt := "p", top := { text := "c" }, bottom := { text := "c" }
                     , left := { text := "b" }, right := { text := "b" }
                     , current := { text := "a" } }
      , outcome := none } (by decide)).1
  · exact (step_snapshot_isolation engineTwoByTwo "p" [(0, 0), (1, 0), (0, 1), (1, 1)] 100
      [EEvent.cont 0 100] rfl (by decide) 0
      { x := 0, y := 0
      , snap := [[{ text := "a" }, { text := "b" }], [{ text := "c" }, { text := "d" }]]
      , prompt := "p", precomputed := none, phase := Phase.running
      , args := some { prompt := "p", top := { text := "c" }, bottom := { text := "c" }
                     , left := { text := "b" }, right := { text := "b" }
                     , current := { text := "a" } }
      , outcome := none } (by decide)).2 _ rfl

/-!
## Claim C4: fault containment of a generation step
-/

theorem applyGrants_presIdx (P : Nat → CellTask → Prop)
    (hP : ∀ i task, P i task → P i { task with phase := Phase.granted })
    (ts : List CellTask) (g : List Nat)
    (h : ∀ i task, ts.get? i = some task → P i task) :
    ∀ i task, (applyGrants ts g).get? i = some task → P i task := by
  intro i task hget
  rw [applyGrants_get?] at hget
  cases hts : ts.get? i with
  | none => rw [hts] at hget; exact absurd hget (by simp)
  | some task0 =>
    rw [hts] at hget
    simp only [Option.map_some'] at hget
    by_cases hc : i ∈ g ∧ task0.phase = Phase.pending
    · rw [if_pos hc] at hget
      rw [← Option.some.inj hget]
      exact hP i task0 (h i task0 hts)
    · rw [if_neg hc] at hget
      rw [← Option.some.inj hget]
      exact h i task0 hts

theorem setTask_presIdx (P : Nat → CellTask → Prop) (ts : List CellTask) (i : Nat)
    (task' : CellTask) (hP : P i task')
    (h : ∀ j task, ts.get? j = some task → P j task) :
    ∀ j task, (setTask ts i task').get? j = some task → P j task := by
  intro j task hget
  rw [setTask, List.get?_set] at hget
  by_cases hij : i = j
  · rw [if_pos hij] at hget
    cases hts : ts.get? j with
    | none => rw [hts] at hget; exact absurd hget (by simp)
    | some task0 =>
      rw [hts] at hget
      have hinj : task' = task := by simpa using hget
      rw [← hinj, ← hij]
      exact hP
  · rw [if_neg hij] at hget
    exact h j task hget

theorem snoc_presIdx (P : Nat → CellTask → Prop) (ts : List CellTask) (task' : CellTask)
    (hP : P ts.length task') (h : ∀ j task, ts.get? j = some task → P j task) :
    ∀ j task, (ts ++ [task']).get? j = some task → P j task := by
  intro j task hget
  by_cases hj : j < ts.length
  · rw [List.get?_append hj] at hget
    exact h j task hget
  · rcases Nat.eq_or_lt_of_le (Nat.le_of_not_lt hj) with heq | hlt
    · rw [heq] at hP
      rw [← heq, List.get?_concat_length] at hget
      rw [← Option.some.inj hget]
      exact hP
    · rw [List.get?_len_le (by simp [Nat.succ_le_of_lt hlt])] at hget
      exact absurd hget (by simp)

theorem computeIdx_inRange (rows cols : Nat) (x y : Int)
    (hx0 : 0 ≤ x) (hx : x < (cols : Int)) (hy0 : 0 ≤ y) (hy : y < (rows : Int)) :
    (0 ≤ (computeIdx rows cols x y).upY ∧ (computeIdx rows cols x y).upY < (rows : Int))
    ∧ (0 ≤ (computeIdx rows cols x y).downY ∧ (computeIdx rows cols x y).downY < (rows : Int))
    ∧ (0 ≤ (computeIdx rows cols x y).leftX ∧ (computeIdx rows cols x y).leftX < (cols : Int))
    ∧ (0 ≤ (computeIdx rows cols x y).rightX ∧ (computeIdx rows cols x y).rightX < (cols : Int)) := by
  have hr : (0 : Int) < (rows : Int) := by omega
  have hc : (0 : Int) < (cols : Int) := by omega
  exact ⟨⟨Int.emod_nonneg _ (by omega), Int.emod_lt_of_pos _ hr⟩,
    ⟨Int.emod_nonneg _ (by omega), Int.emod_lt_of_pos _ hr⟩,
    ⟨Int.emod_nonneg _ (by omega), Int.emod_lt_of_pos _ hc⟩,
    ⟨Int.emod_nonneg _ (by omega), Int.emod_lt_of_pos _ hc⟩⟩

theorem cellAt?_shape (g : Grid) (rows cols : Nat) (hg : GridShape g rows cols)
    (x y : Int) (hx0 : 0 ≤ x) (hx : x < (cols : Int)) (hy0 : 0 ≤ y)
    (hy : y < (rows : Int)) : ∃ c, cellAt? g x y = some c := by
  unfold cellAt?
  rw [if_pos ⟨hy0, hx0⟩]
  have hyn : y.toNat < g.length := by rw [hg.1]; omega
  rw [List.get?_eq_get hyn]
  have hrowlen : (g.get ⟨y.toNat, hyn⟩).length = cols :=
    hg.2 y.toNat _ (List.get?_eq_get hyn)
  have hxn : x.toNat < (g.get ⟨y.toNat, hyn⟩).length := by rw [hrowlen]; omega
  exact ⟨_, by rw [Option.some_bind, List.get?_eq_get hxn]⟩

theorem kernelArgsOf_shape (g : Grid) (rows cols : Nat) (hg : GridShape g rows cols)
    (x y : Int) (hx0 : 0 ≤ x) (hx : x < (cols : Int)) (hy0 : 0 ≤ y)
    (hy : y < (rows : Int)) (p : String) :
    ∃ a, kernelArgsOf g (computeIdx rows cols x y) x y p = some a := by
  obtain ⟨hu, hd, hl, hr⟩ := computeIdx_inRange rows cols x y hx0 hx hy0 hy
  obtain ⟨cu, hcu⟩ := cellAt?_shape g rows cols hg x _ hx0 hx hu.1 hu.2
  obtain ⟨cd, hcd⟩ := cellAt?_shape g rows cols hg x _ hx0 hx hd.1 hd.2
  obtain ⟨cl, hcl⟩ := cellAt?_shape g rows cols hg _ y hl.1 hl.2 hy0 hy
  obtain ⟨cr, hcr⟩ := cellAt?_shape g rows cols hg _ y hr.1 hr.2 hy0 hy
  obtain ⟨cc, hcc⟩ := cellAt?_shape g rows cols hg x y hx0 hx hy0 hy
  unfold kernelArgsOf
  rw [hcu, hcd, hcl, hcr, hcc]
  exact ⟨_, rfl⟩

theorem gridWrite_isSome (g : Grid) (rows cols : Nat) (hg : GridShape g rows cols)
    (x y : Int) (text : String) (hx0 : 0 ≤ x) (hx : x < (cols : Int)) (hy0 : 0 ≤ y)
    (hy : y < (rows : Int)) : ∃ g2, gridWrite g x y text = some g2 := by
  unfold gridWrite
  rw [if_pos ⟨hy0, hx0⟩]
  have hyn : y.toNat < g.length := by rw [hg.1]; omega
  rw [List.get?_eq_get hyn]
  have hrl := hg.2 y.toNat _ (List.get?_eq_get hyn)
  show ∃ g2, (if x.toNat < (g.get ⟨y.toNat, hyn⟩).length then _ else none) = some g2
  rw [if_pos (by rw [hrl]; omega)]
  exact ⟨_, rfl⟩

theorem gridWrite_spec (g : Grid) (x y : Int) (text : String) (g2 : Grid)
    (hw : gridWrite g x y text = some g2) :
    g2.length = g.length
    ∧ (∀ j row2, g2.get? j = some row2 → ∃ row, g.get? j = some row ∧
        row2.length = row.length)
    ∧ cellAt? g2 x y = some { text := text }
    ∧ (∀ x' y' : Int, x' ≠ x ∨ y' ≠ y → cellAt? g2 x' y' = cellAt? g x' y') := by
  unfold gridWrite at hw
  by_cases h0 : 0 ≤ y ∧ 0 ≤ x
  · rw [if_pos h0] at hw
    cases hrow : g.get? y.toNat with
    | none => rw [hrow] at hw; exact absurd hw (by simp)
    | some row =>
      rw [hrow] at hw
      have hw2 : (if x.toNat < row.length then
          some (g.set y.toNat (row.set x.toNat { text := text })) else none) = some g2 := hw
      by_cases hxl : x.toNat < row.length
      · rw [if_pos hxl] at hw2
        have hg2 : g2 = g.set y.toNat (row.set x.toNat { text := text }) :=
          (Option.some.inj hw2).symm
        subst hg2
        refine ⟨List.length_set g _ _, ?_, ?_, ?_⟩
        · intro j row2 hj
          rw [List.get?_set] at hj
          by_cases hyj : y.toNat = j
          · rw [if_pos hyj] at hj
            rw [← hyj] at hj ⊢
            rw [hrow] at hj
            have hj2 : some (row.set x.toNat { text := text }) = some row2 := hj
            exact ⟨row, hrow, by rw [← Option.some.inj hj2, List.length_set]⟩
          · rw [if_neg hyj] at hj
            exact ⟨row2, hj, rfl⟩
        · unfold cellAt?
          rw [if_pos ⟨h0.1, h0.2⟩]
          rw [List.get?_set_eq, hrow]
          show (row.set x.toNat { text := text }).get? x.toNat = some { text := text }
          rw [List.get?_set_eq, List.get?_eq_get hxl]
          rfl
        · intro x' y' hne
          unfold cellAt?
          by_cases hok : 0 ≤ y' ∧ 0 ≤ x'
          · rw [if_pos hok, if_pos hok]
            by_cases hyy : y.toNat = y'.toNat
            · have hy' : y' = y := by omega
              have hxx : x' ≠ x := by
                rcases hne with hne | hne
                · exact hne
                · exact absurd hy' hne
              rw [List.get?_set, if_pos hyy, ← hyy, hrow]
              show (row.set x.toNat { text := text }).get? x'.toNat = row.get? x'.toNat
              exact List.get?_set_ne _ _ (by omega)
            · rw [List.get?_set_ne _ _ hyy]
          · rw [if_neg hok, if_neg hok]
      · rw [if_neg hxl] at hw2
        exact absurd hw2 (by simp)
  · rw [if_neg h0] at hw
    exact absurd hw (by simp)

theorem gridWrite_shape (g g2 : Grid) (rows cols : Nat) (x y : Int) (text : String)
    (hg : GridShape g rows cols) (hw : gridWrite g x y text = some g2) :
    GridShape g2 rows cols := by
  obtain ⟨h1, h2, _, _⟩ := gridWrite_spec g x y text g2 hw
  refine ⟨by rw [h1, hg.1], ?_⟩
  intro j row2 hj
  obtain ⟨row, hrow, hlen⟩ := h2 j row2 hj
  rw [hlen]
  exact hg.2 j row hrow

theorem launchFold_fields (prompt : String) (snap : Grid) (t : Nat) :
    ∀ (order : List (Int × Int)) (acc : Engine),
      (order.foldl (fun a c => Engine.launchOne a prompt snap c t) acc).grid = acc.grid
      ∧ (order.foldl (fun a c => Engine.launchOne a prompt snap c t) acc).steps = acc.steps
      ∧ (order.foldl (fun a c => Engine.launchOne a prompt snap c t) acc).rows = acc.rows
      ∧ (order.foldl (fun a c => Engine.launchOne a prompt snap c t) acc).cols = acc.cols
  | [], _ => ⟨rfl, rfl, rfl, rfl⟩
  | c :: rest, acc => launchFold_fields prompt snap t rest (Engine.launchOne acc prompt snap c t)

theorem launchFold_presIdx (prompt : String) (snap : Grid) (t : Nat)
    (P : Nat → CellTask → Prop)
    (hP : ∀ i task, P i task → P i { task with phase := Phase.granted }) :
    ∀ (order : List (Int × Int)) (acc : Engine),
      (∀ j task, acc.tasks.get? j = some task → P j task) →
      (∀ (k : Nat) (c : Int × Int), order.get? k = some c →
        P (acc.tasks.length + k)
          { x := c.1, y := c.2, snap := snap, prompt := prompt, precomputed := none
          , phase := Phase.pending, args := none, outcome := none }) →
      ∀ j task,
        (order.foldl (fun a c => Engine.launchOne a prompt snap c t) acc).tasks.get? j
          = some task → P j task
  | [], _, hold, _ => hold
  | c :: rest, acc, hold, hnew => by
    have hnew0 : P acc.tasks.length
        { x := c.1, y := c.2, snap := snap, prompt := prompt, precomputed := none
        , phase := Phase.pending, args := none, outcome := none } := by
      have h := hnew 0 c rfl
      rw [Nat.add_zero] at h
      exact h
    have hold' : ∀ j task,
        (Engine.launchOne acc prompt snap c t).tasks.get? j = some task → P j task :=
      applyGrants_presIdx P hP _ _ (snoc_presIdx P acc.tasks _ hnew0 hold)
    have hnew' : ∀ (k : Nat) (c' : Int × Int), rest.get? k = some c' →
        P ((Engine.launchOne acc prompt snap c t).tasks.length + k)
          { x := c'.1, y := c'.2, snap := snap, prompt := prompt, precomputed := none
          , phase := Phase.pending, args := none, outcome := none } := by
      intro k c' hk
      have h := hnew (k + 1) c' hk
      rw [show acc.tasks.length + (k + 1) = acc.tasks.length + 1 + k from by omega] at h
      rw [launchOne_tasks_length]
      exact h
    exact launchFold_presIdx prompt snap t P hP rest (Engine.launchOne acc prompt snap c t)
      hold' hnew'

theorem launch_steps (e : Engine) (prompt : String) (order : List (Int × Int)) (t : Nat) :
    (Engine.nextGenerationLaunch e prompt order t).steps
      = e.steps ++ [{ ids := List.range' e.tasks.length order.length
                    , status := StepStatus.stillPending }] := by
  have h := (launchFold_fields prompt
    (Engine.snapshot { e with generationInProgress := true }) t order
    { e with generationInProgress := true }).2.1
  exact congrArg (fun l => l ++ [{ ids := List.range' e.tasks.length order.length
                                 , status := StepStatus.stillPending }]) h

theorem launch_grid (e : Engine) (prompt : String) (order : List (Int × Int)) (t : Nat) :
    (Engine.nextGenerationLaunch e prompt order t).grid = e.grid :=
  (launchFold_fields prompt (Engine.snapshot { e with generationInProgress := true }) t
    order { e with generationInProgress := true }).1

theorem launch_rows (e : Engine) (prompt : String) (order : List (Int × Int)) (t : Nat) :
    (Engine.nextGenerationLaunch e prompt order t).rows = e.rows :=
  (launchFold_fields prompt (Engine.snapshot { e with generationInProgress := true }) t
    order { e with generationInProgress := true }).2.2.1

theorem launch_cols (e : Engine) (prompt : String) (order : List (Int × Int)) (t : Nat) :
    (Engine.nextGenerationLaunch e prompt order t).cols = e.cols :=
  (launchFold_fields prompt (Engine.snapshot { e with generationInProgress := true }) t
    order { e with generationInProgress := true }).2.2.2

theorem stepInv_launch (e : Engine) (prompt : String) (order : List (Int × Int)) (t : Nat)
    (hT : e.tasks = []) (hS : e.steps = [])
    (hshape : GridShape e.grid e.rows e.cols) :
    StepInv e.grid e.rows e.cols order (Engine.nextGenerationLaunch e prompt order t) := by
  have hfold := launchFold_presIdx prompt
    (Engine.snapshot { e with generationInProgress := true }) t
    (fun j task => order.get? j = some (task.x, task.y) ∧ task.snap = e.grid ∧
      task.precomputed = none ∧
      (task.phase = Phase.pending ∨ task.phase = Phase.granted))
    (fun i task h => ⟨h.1, h.2.1, h.2.2.1, Or.inr rfl⟩) order
    { e with generationInProgress := true }
    (by
      intro j task hget
      rw [show ({ e with generationInProgress := true } : Engine).tasks = e.tasks from rfl,
        hT] at hget
      exact absurd hget (by simp))
    (by
      intro k c hk
      refine ⟨?_, Engine.snapshot_eq _, rfl, Or.inl rfl⟩
      rw [show ({ e with generationInProgress := true } : Engine).tasks = e.tasks from rfl,
        hT, List.length_nil, Nat.zero_add]
      exact hk)
  have htasks : ∀ j task,
      (Engine.nextGenerationLaunch e prompt order t).tasks.get? j = some task →
        order.get? j = some (task.x, task.y) ∧ task.snap = e.grid ∧
        task.precomputed = none ∧
        (task.phase = Phase.pending ∨ task.phase = Phase.granted) := hfold
  constructor
  · exact launch_rows e prompt order t
  · exact launch_cols e prompt order t
  · rw [launch_grid]; exact hshape
  · have h : (Engine.nextGenerationLaunch e prompt order t).tasks.length
        = e.tasks.length + order.length :=
      launchFold_tasks_length prompt
        (Engine.snapshot { e with generationInProgress := true }) t order
        { e with generationInProgress := true }
    rw [hT] at h
    simpa using h
  · exact fun i task h => (htasks i task h).1
  · intro i task h
    rcases (htasks i task h).2.2.2 with hp | hp <;> rw [hp] <;> simp
  · intro i task h hdone
    rcases (htasks i task h).2.2.2 with hp | hp <;> rw [hdone] at hp <;> exact absurd hp (by simp)
  · exact fun i task h => ⟨(htasks i task h).2.1, (htasks i task h).2.2.1⟩
  · refine ⟨StepStatus.stillPending, ?_, by simp, by intro h; exact absurd h (by simp)⟩
    rw [launch_steps, hS, hT]
    simp [← List.range_eq_range']

theorem stepInv_task_bounds (g0 : Grid) (r0 c0 : Nat) (order : List (Int × Int))
    (s : Engine) (inv : StepInv g0 r0 c0 order s)
    (hbound : ∀ c ∈ order, 0 ≤ c.1 ∧ c.1 < (c0 : Int) ∧ 0 ≤ c.2 ∧ c.2 < (r0 : Int))
    (i : Nat) (task : CellTask) (hget : s.tasks.get? i = some task) :
    0 ≤ task.x ∧ task.x < (c0 : Int) ∧ 0 ≤ task.y ∧ task.y < (r0 : Int) :=
  hbound _ (List.get?_mem (inv.coords i task hget))

theorem stepInv_coords_ne (g0 : Grid) (r0 c0 : Nat) (order : List (Int × Int))
    (s : Engine) (inv : StepInv g0 r0 c0 order s) (hnodup : order.Nodup)
    (i j : Nat) (ti tj : CellTask) (hi : s.tasks.get? i = some ti)
    (hj : s.tasks.get? j = some tj) (hij : i ≠ j) :
    ti.x ≠ tj.x ∨ ti.y ≠ tj.y := by
  by_contra hcon
  push_neg at hcon
  have hci := inv.coords i ti hi
  have hcj := inv.coords j tj hj
  have heq : order.get? i = order.get? j := by
    rw [hci, hcj, hcon.1, hcon.2]
  have hilt : i < order.length := by
    by_contra hilt
    rw [List.get?_len_le (Nat.le_of_not_lt hilt)] at hci
    exact absurd hci (by simp)
  exact hij (List.get?_injective hilt hnodup heq)

theorem applyGrants_get?_cases (ts : List CellTask) (g : List Nat) (j : Nat)
    (task2 : CellTask) (h : (applyGrants ts g).get? j = some task2) :
    ∃ task1, ts.get? j = some task1 ∧
      (task2 = task1 ∨ (task1.phase = Phase.pending ∧
        task2 = { task1 with phase := Phase.granted })) := by
  rw [applyGrants_get?] at h
  cases hts : ts.get? j with
  | none => rw [hts] at h; exact absurd h (by simp)
  | some task1 =>
    rw [hts] at h
    simp only [Option.map_some'] at h
    by_cases hc : j ∈ g ∧ task1.phase = Phase.pending
    · rw [if_pos hc] at h
      exact ⟨task1, rfl, Or.inr ⟨hc.2, (Option.some.inj h).symm⟩⟩
    · rw [if_neg hc] at h
      exact ⟨task1, rfl, Or.inl (Option.some.inj h).symm⟩

theorem setTask_get?_cases (ts : List CellTask) (i : Nat) (task' : CellTask) (j : Nat)
    (task1 : CellTask) (h : (setTask ts i task').get? j = some task1) :
    (j = i ∧ task1 = task') ∨ (j ≠ i ∧ ts.get? j = some task1) := by
  rw [setTask, List.get?_set] at h
  by_cases hij : i = j
  · rw [if_pos hij] at h
    cases hts : ts.get? j with
    | none => rw [hts] at h; exact absurd h (by simp)
    | some t0 =>
      rw [hts] at h
      have : task' = task1 := by simpa using h
      exact Or.inl ⟨hij.symm, this.symm⟩
  · rw [if_neg hij] at h
    exact Or.inr ⟨fun hji => hij hji.symm, h⟩

theorem finishTask_steps (e : Engine) (i : Nat) (task : CellTask) (text : String)
    (outc : Except String String) (t : Nat) :
    (Engine.finishTask e i task text outc t).steps = e.steps := by
  unfold Engine.finishTask
  split <;> rfl

theorem finishTask_flag (e : Engine) (i : Nat) (task : CellTask) (text : String)
    (outc : Except String String) (t : Nat) :
    (Engine.finishTask e i task text outc t).generationInProgress =
      e.generationInProgress := by
  unfold Engine.finishTask
  split <;> rfl

theorem stepInv_finishTask (g0 : Grid) (r0 c0 : Nat) (order : List (Int × Int))
    (hbound : ∀ c ∈ order, 0 ≤ c.1 ∧ c.1 < (c0 : Int) ∧ 0 ≤ c.2 ∧ c.2 < (r0 : Int))
    (hnodup : order.Nodup) (s : Engine) (i : Nat) (task : CellTask) (text : String)
    (outcome : Except String String) (t : Nat) (inv : StepInv g0 r0 c0 order s)
    (hget : s.tasks.get? i = some task) (htext : text = textOf outcome) :
    StepInv g0 r0 c0 order (Engine.finishTask s i task text outcome t) := by
  obtain ⟨hx0, hx, hy0, hy⟩ := stepInv_task_bounds g0 r0 c0 order s inv hbound i task hget
  obtain ⟨g2, hw⟩ := gridWrite_isSome s.grid r0 c0 inv.shape task.x task.y text hx0 hx hy0 hy
  have hci := inv.coords i task hget
  have hsi := inv.snaps i task hget
  unfold Engine.finishTask
  split
  next g2' hw' =>
    obtain ⟨hlen2, hrows2, hself, hother⟩ := gridWrite_spec s.grid task.x task.y text g2' hw'
    constructor
    · exact inv.rows_eq
    · exact inv.cols_eq
    · exact gridWrite_shape s.grid g2' r0 c0 task.x task.y text inv.shape hw'
    · show (applyGrants (setTask s.tasks i _) _).length = order.length
      rw [applyGrants_length, setTask, List.length_set]
      exact inv.len_eq
    · exact applyGrants_presIdx (fun j task2 => order.get? j = some (task2.x, task2.y))
        (fun j task2 h => h) _ _
        (setTask_presIdx _ s.tasks i _ hci inv.coords)
    · exact applyGrants_presIdx (fun j task2 => task2.phase ≠ Phase.faulted)
        (fun j task2 h => by simp) _ _
        (setTask_presIdx _ s.tasks i _ (by simp) inv.not_faulted)
    · intro j task2 hget2 hdone
      obtain ⟨task1, hget1, hcase⟩ := applyGrants_get?_cases _ _ j task2 hget2
      rcases hcase with hcase | hcase
      · rcases setTask_get?_cases s.tasks i _ j task1 hget1 with ⟨hji, htd⟩ | ⟨hji, hold⟩
        · refine ⟨outcome, by rw [hcase, htd], ?_⟩
          rw [hcase, htd]
          show cellAt? g2' task.x task.y = some { text := textOf outcome }
          rw [← htext]
          exact hself
        · rw [hcase] at hdone
          obtain ⟨o, ho1, ho2⟩ := inv.done_cell j task1 hold hdone
          refine ⟨o, by rw [hcase]; exact ho1, ?_⟩
          rw [hcase]
          have hne : task1.x ≠ task.x ∨ task1.y ≠ task.y :=
            stepInv_coords_ne g0 r0 c0 order s inv hnodup j i task1 task hold hget hji
          rw [hother task1.x task1.y hne]
          exact ho2
      · rw [hcase.2] at hdone
        exact absurd hdone (by simp)
    · exact applyGrants_presIdx
        (fun j task2 => task2.snap = g0 ∧ task2.precomputed = none)
        (fun j task2 h => h) _ _
        (setTask_presIdx _ s.tasks i _ hsi inv.snaps)
    · obtain ⟨st, h1, h2, h3⟩ := inv.steps_eq
      exact ⟨st, h1, h2, h3⟩
  next hw' =>
    rw [hw'] at hw
    exact absurd hw (by simp)

theorem resolveTask_stepInv (g0 : Grid) (r0 c0 : Nat) (order : List (Int × Int))
    (hbound : ∀ c ∈ order, 0 ≤ c.1 ∧ c.1 < (c0 : Int) ∧ 0 ≤ c.2 ∧ c.2 < (r0 : Int))
    (hnodup : order.Nodup) (s : Engine) (i : Nat) (outcome : Except String String)
    (t : Nat) (inv : StepInv g0 r0 c0 order s) :
    StepInv g0 r0 c0 order (s.resolveTask i outcome t) := by
  unfold Engine.resolveTask
  split
  · exact inv
  next task hget =>
    by_cases hph : task.phase = Phase.running
    · rw [if_pos hph]
      exact stepInv_finishTask g0 r0 c0 order hbound hnodup s i task _ outcome t inv
        hget rfl
    · rw [if_neg hph]
      exact inv

theorem contBody_stepInv (g0 : Grid) (r0 c0 : Nat) (order : List (Int × Int))
    (hg0 : GridShape g0 r0 c0)
    (hbound : ∀ c ∈ order, 0 ≤ c.1 ∧ c.1 < (c0 : Int) ∧ 0 ≤ c.2 ∧ c.2 < (r0 : Int))
    (e : Engine) (i : Nat) (task : CellTask) (t : Nat)
    (inv : StepInv g0 r0 c0 order e) (hget : e.tasks.get? i = some task) :
    StepInv g0 r0 c0 order (e.contBody i task t) := by
  obtain ⟨hx0, hx, hy0, hy⟩ := stepInv_task_bounds g0 r0 c0 order e inv hbound i task hget
  have hsn := inv.snaps i task hget
  obtain ⟨a0, ha0⟩ := kernelArgsOf_shape g0 r0 c0 hg0 task.x task.y hx0 hx hy0 hy
    task.prompt
  unfold Engine.contBody
  split
  next a heq =>
    constructor
    · exact inv.rows_eq
    · exact inv.cols_eq
    · exact inv.shape
    · show (setTask e.tasks i _).length = order.length
      rw [setTask, List.length_set]
      exact inv.len_eq
    · exact setTask_presIdx _ e.tasks i _ (inv.coords i task hget) inv.coords
    · exact setTask_presIdx _ e.tasks i _ (by simp) inv.not_faulted
    · intro j task2 hget2 hdone
      rcases setTask_get?_cases e.tasks i _ j task2 hget2 with ⟨hji, htd⟩ | ⟨hji, hold⟩
      · rw [htd] at hdone
        exact absurd hdone (by simp)
      · exact inv.done_cell j task2 hold hdone
    · exact setTask_presIdx _ e.tasks i _ hsn inv.snaps
    · exact inv.steps_eq
  next heq =>
    rw [contIdx_none e task hsn.2, inv.rows_eq, inv.cols_eq, hsn.1] at heq
    exact absurd (ha0.symm.trans heq) (by simp)

theorem contTask_stepInv (g0 : Grid) (r0 c0 : Nat) (order : List (Int × Int))
    (hg0 : GridShape g0 r0 c0)
    (hbound : ∀ c ∈ order, 0 ≤ c.1 ∧ c.1 < (c0 : Int) ∧ 0 ≤ c.2 ∧ c.2 < (r0 : Int))
    (s : Engine) (i t : Nat) (inv : StepInv g0 r0 c0 order s) :
    StepInv g0 r0 c0 order (s.contTask i t) := by
  unfold Engine.contTask
  split
  · exact inv
  next task hget =>
    by_cases hph : task.phase = Phase.granted
    · rw [if_pos hph]
      exact contBody_stepInv g0 r0 c0 order hg0 hbound _ i task t
        ⟨inv.rows_eq, inv.cols_eq, inv.shape, inv.len_eq, inv.coords, inv.not_faulted,
          inv.done_cell, inv.snaps, inv.steps_eq⟩ hget
    · rw [if_neg hph]
      exact inv

theorem timerFire_stepInv (g0 : Grid) (r0 c0 : Nat) (order : List (Int × Int))
    (s : Engine) (t : Nat) (inv : StepInv g0 r0 c0 order s) :
    StepInv g0 r0 c0 order (s.timerFire t) := by
  constructor
  · exact inv.rows_eq
  · exact inv.cols_eq
  · exact inv.shape
  · show (applyGrants s.tasks _).length = order.length
    rw [applyGrants_length]
    exact inv.len_eq
  · exact applyGrants_presIdx _ (fun j task2 h => h) _ _ inv.coords
  · exact applyGrants_presIdx (fun j task2 => task2.phase ≠ Phase.faulted)
      (fun j task2 h => by simp) _ _ inv.not_faulted
  · intro j task2 hget2 hdone
    obtain ⟨task1, hget1, hcase⟩ := applyGrants_get?_cases _ _ j task2 hget2
    rcases hcase with hcase | hcase
    · rw [hcase]
      rw [hcase] at hdone
      exact inv.done_cell j task1 hget1 hdone
    · rw [hcase.2] at hdone
      exact absurd hdone (by simp)
  · exact applyGrants_presIdx _ (fun j task2 h => h) _ _ inv.snaps
  · exact inv.steps_eq

theorem barrierCheck_stepInv (g0 : Grid) (r0 c0 : Nat) (order : List (Int × Int))
    (s : Engine) (k : Nat) (inv : StepInv g0 r0 c0 order s) :
    StepInv g0 r0 c0 order (s.barrierCheck k) := by
  obtain ⟨st, hsteps, hnrej, hres⟩ := inv.steps_eq
  unfold Engine.barrierCheck
  split
  · exact inv
  next rec0 hsome =>
    have hk : k = 0 ∧ rec0 = { ids := List.range order.length, status := st } := by
      rw [hsteps] at hsome
      cases k with
      | zero => exact ⟨rfl, (Option.some.inj hsome).symm⟩
      | succ n => exact absurd hsome (by simp)
    by_cases hst : rec0.status = StepStatus.stillPending
    · rw [if_pos hst]
      cases hany : rec0.ids.any (fun i =>
          match s.tasks.get? i with
          | some task => decide (task.phase = Phase.faulted)
          | none => false) with
      | true =>
        exfalso
        obtain ⟨i0, _, hfi⟩ := List.any_eq_true.mp hany
        cases hti : s.tasks.get? i0 with
        | none => rw [hti] at hfi; exact absurd hfi (by simp)
        | some task =>
          rw [hti] at hfi
          simp only [decide_eq_true_eq] at hfi
          exact inv.not_faulted i0 task hti hfi
      | false =>
        rw [if_neg (by simp)]
        cases hall : rec0.ids.all (fun i =>
            match s.tasks.get? i with
            | some task => decide (task.phase = Phase.done)
            | none => false) with
        | true =>
          rw [if_pos (show (true : Bool) = true from rfl)]
          constructor
          · exact inv.rows_eq
          · exact inv.cols_eq
          · exact inv.shape
          · exact inv.len_eq
          · exact inv.coords
          · exact inv.not_faulted
          · exact inv.done_cell
          · exact inv.snaps
          · refine ⟨StepStatus.resolvedOk, ?_, by simp, fun _ => rfl⟩
            show s.steps.set k { rec0 with status := StepStatus.resolvedOk }
              = [{ ids := List.range order.length, status := StepStatus.resolvedOk }]
            rw [hk.1, hsteps, hk.2]
            rfl
        | false =>
          rw [if_neg (by simp)]
          exact inv
    · rw [if_neg hst]
      exact inv

theorem coordsList_mem_bounds (cols rows : Nat) (c : Int × Int)
    (h : c ∈ coordsList cols rows) :
    0 ≤ c.1 ∧ c.1 < (cols : Int) ∧ 0 ≤ c.2 ∧ c.2 < (rows : Int) := by
  unfold coordsList at h
  rw [List.mem_flatMap] at h
  obtain ⟨y, hy, hc⟩ := h
  rw [List.mem_map] at hc
  obtain ⟨x, hx, hc⟩ := hc
  rw [List.mem_range] at hx hy
  subst hc
  exact ⟨by omega, by omega, by omega, by omega⟩

theorem coordsList_nodup (cols rows : Nat) : (coordsList cols rows).Nodup := by
  unfold coordsList
  rw [List.nodup_flatMap]
  constructor
  · intro y hy
    apply List.Nodup.map ?_ (List.nodup_range cols)
    intro a b hab
    have h1 := congrArg Prod.fst hab
    simp only at h1
    omega
  · apply List.Pairwise.imp ?_ (List.pairwise_lt_range rows)
    intro y1 y2 hlt
    intro c hc1 hc2
    rw [List.mem_map] at hc1 hc2
    obtain ⟨x1, _, h1⟩ := hc1
    obtain ⟨x2, _, h2⟩ := hc2
    have h3 := congrArg Prod.snd h1
    have h4 := congrArg Prod.snd h2
    simp only at h3 h4
    omega

theorem stepInv_estep (g0 : Grid) (r0 c0 : Nat) (order : List (Int × Int))
    (hg0 : GridShape g0 r0 c0)
    (hbound : ∀ c ∈ order, 0 ≤ c.1 ∧ c.1 < (c0 : Int) ∧ 0 ≤ c.2 ∧ c.2 < (r0 : Int))
    (hnodup : order.Nodup) (s : Engine) (ev : EEvent) (hev : stepInternal ev = true)
    (inv : StepInv g0 r0 c0 order s) : StepInv g0 r0 c0 order (estep s ev) := by
  cases ev with
  | runStep prompt order2 t => exact absurd hev (by simp [stepInternal])
  | updateCell cx cy prompt t => exact absurd hev (by simp [stepInternal])
  | setKey => exact absurd hev (by simp [stepInternal])
  | resizeTo n => exact absurd hev (by simp [stepInternal])
  | cont i t => exact contTask_stepInv g0 r0 c0 order hg0 hbound s i t inv
  | settle i outcome t =>
    exact resolveTask_stepInv g0 r0 c0 order hbound hnodup s i outcome t inv
  | timer t => exact timerFire_stepInv g0 r0 c0 order s t inv
  | barrier k => exact barrierCheck_stepInv g0 r0 c0 order s k inv

theorem stepInv_erun (g0 : Grid) (r0 c0 : Nat) (order : List (Int × Int))
    (hg0 : GridShape g0 r0 c0)
    (hbound : ∀ c ∈ order, 0 ≤ c.1 ∧ c.1 < (c0 : Int) ∧ 0 ≤ c.2 ∧ c.2 < (r0 : Int))
    (hnodup : order.Nodup) :
    ∀ (tr : List EEvent) (s : Engine), tr.all stepInternal = true →
      StepInv g0 r0 c0 order s → StepInv g0 r0 c0 order (erun s tr)
  | [], _, _, inv => inv
  | ev :: rest, s, hall, inv => by
    rw [List.all_cons, Bool.and_eq_true] at hall
    exact stepInv_erun g0 r0 c0 order hg0 hbound hnodup rest (estep s ev) hall.2
      (stepInv_estep g0 r0 c0 order hg0 hbound hnodup s ev hall.1 inv)

theorem stepInv_barrier_resolves (g0 : Grid) (r0 c0 : Nat) (order : List (Int × Int))
    (s : Engine) (inv : StepInv g0 r0 c0 order s)
    (hall : ∀ i task, s.tasks.get? i = some task → task.phase = Phase.done) :
    (s.barrierCheck 0).generationInProgress = false
    ∧ ∃ rec1, (s.barrierCheck 0).steps.get? 0 = some rec1
        ∧ rec1.status = StepStatus.resolvedOk := by
  obtain ⟨st, hsteps, hnrej, hres⟩ := inv.steps_eq
  unfold Engine.barrierCheck
  split
  next hnone => rw [hsteps] at hnone; exact absurd hnone (by simp)
  next rec0 hsome =>
    have hrec : rec0 = { ids := List.range order.length, status := st } := by
      rw [hsteps] at hsome
      exact (Option.some.inj hsome).symm
    cases hstv : st with
    | stillPending =>
      rw [hstv] at hrec
      rw [if_pos (by rw [hrec])]
      have hanyf : (rec0.ids.any fun i =>
          match s.tasks.get? i with
          | some task => decide (task.phase = Phase.faulted)
          | none => false) = false := by
        cases hany : (rec0.ids.any fun i =>
            match s.tasks.get? i with
            | some task => decide (task.phase = Phase.faulted)
            | none => false) with
        | false => rfl
        | true =>
          exfalso
          obtain ⟨i0, _, hfi⟩ := List.any_eq_true.mp hany
          cases hti : s.tasks.get? i0 with
          | none => rw [hti] at hfi; exact absurd hfi (by simp)
          | some task =>
            rw [hti] at hfi
            simp only [decide_eq_true_eq] at hfi
            have hdone := hall i0 task hti
            rw [hdone] at hfi
            exact absurd hfi (by simp)
      rw [if_neg (by rw [hanyf]; simp)]
      have halld : (rec0.ids.all fun i =>
          match s.tasks.get? i with
          | some task => decide (task.phase = Phase.done)
          | none => false) = true := by
        rw [List.all_eq_true]
        intro i0 hmem
        rw [hrec] at hmem
        rw [List.mem_range] at hmem
        have hlt : i0 < s.tasks.length := by rw [inv.len_eq]; exact hmem
        rw [List.get?_eq_get hlt]
        exact decide_eq_true (hall i0 _ (List.get?_eq_get hlt))
      rw [if_pos halld]
      refine ⟨rfl, ⟨{ rec0 with status := StepStatus.resolvedOk }, ?_, rfl⟩⟩
      show (s.steps.set 0 _).get? 0 = _
      rw [hsteps]
      rfl
    | resolvedOk =>
      rw [hstv] at hrec hres
      rw [if_neg (by rw [hrec]; simp)]
      exact ⟨hres rfl, ⟨rec0, hsome, by rw [hrec]⟩⟩
    | rejected =>
      rw [hstv] at hnrej
      exact absurd rfl hnrej

theorem gridShape_of_forall_lt (g : Grid) (rows cols : Nat) (h1 : g.length = rows)
    (h2 : ∀ j (h : j < g.length), (g.get ⟨j, h⟩).length = cols) :
    GridShape g rows cols := by
  refine ⟨h1, ?_⟩
  intro j row hj
  have hlt : j < g.length := by
    by_contra hge
    rw [List.get?_len_le (Nat.le_of_not_lt hge)] at hj
    exact absurd hj (by simp)
  rw [List.get?_eq_get hlt] at hj
  rw [← Option.some.inj hj]
  exact h2 j hlt

/-- C4: for every generation step launched over a shuffled enumeration of
the whole grid (from an engine with no prior tasks or steps and a
consistent grid) and every sequence of step-internal events, with the
external collaborator failing on arbitrarily many cells (the `settle`
events carry arbitrary outcomes): (1) no cell task's promise is ever
rejected — failures are absorbed inside the task; (2) the step's
`Promise.all` barrier is never rejected; (3) once every task has
completed, the barrier check resolves the step and clears
`generationInProgress`; and (4) every completed task whose kernel call
failed with message `m` has written exactly `m` into its own live-grid
cell. -/
theorem step_fault_containment (e : Engine) (prompt : String)
    (order : List (Int × Int)) (t0 : Nat) (trace : List EEvent)
    (hT : e.tasks = []) (hS : e.steps = [])
    (hshape : GridShape e.grid e.rows e.cols)
    (hperm : order.Perm (coordsList e.cols e.rows))
    (hs : trace.all stepInternal = true) :
    (∀ i task,
      (erun e (EEvent.runStep prompt order t0 :: trace)).tasks.get? i = some task →
        task.phase ≠ Phase.faulted)
    ∧ (∀ k rec1,
        (erun e (EEvent.runStep prompt order t0 :: trace)).steps.get? k = some rec1 →
          rec1.status ≠ StepStatus.rejected)
    ∧ ((∀ i task,
        (erun e (EEvent.runStep prompt order t0 :: trace)).tasks.get? i = some task →
          task.phase = Phase.done) →
        (estep (erun e (EEvent.runStep prompt order t0 :: trace))
            (EEvent.barrier 0)).generationInProgress = false
        ∧ ∃ rec1, (estep (erun e (EEvent.runStep prompt order t0 :: trace))
            (EEvent.barrier 0)).steps.get? 0 = some rec1
            ∧ rec1.status = StepStatus.resolvedOk)
    ∧ (∀ i task m,
        (erun e (EEvent.runStep prompt order t0 :: trace)).tasks.get? i = some task →
          task.phase = Phase.done → task.outcome = some (Except.error m) →
          cellAt? (erun e (EEvent.runStep prompt order t0 :: trace)).grid
            task.x task.y = some { text := m }) := by
  have hbound : ∀ c ∈ order, 0 ≤ c.1 ∧ c.1 < (e.cols : Int) ∧ 0 ≤ c.2 ∧
      c.2 < (e.rows : Int) :=
    fun c hc => coordsList_mem_bounds e.cols e.rows c (hperm.mem_iff.mp hc)
  have hnodup : order.Nodup := hperm.nodup_iff.mpr (coordsList_nodup e.cols e.rows)
  have inv0 := stepInv_launch e prompt order t0 hT hS hshape
  have inv : StepInv e.grid e.rows e.cols order
      (erun (estep e (EEvent.runStep prompt order t0)) trace) :=
    stepInv_erun e.grid e.rows e.cols order hshape hbound hnodup trace _ hs inv0
  refine ⟨inv.not_faulted, ?_, ?_, ?_⟩
  · intro k rec1 hk
    obtain ⟨st, hsteps, hnrej, _⟩ := inv.steps_eq
    have hk2 : (erun (estep e (EEvent.runStep prompt order t0)) trace).steps.get? k
        = some rec1 := hk
    rw [hsteps] at hk2
    cases k with
    | zero =>
      rw [← Option.some.inj hk2]
      exact hnrej
    | succ n => exact absurd hk2 (by simp)
  · intro hall
    exact stepInv_barrier_resolves e.grid e.rows e.cols order _ inv hall
  · intro i task m hget hdone houtc
    obtain ⟨o, ho1, ho2⟩ := inv.done_cell i task hget hdone
    rw [houtc] at ho1
    rw [← Option.some.inj ho1] at ho2
    exact ho2

/-- Witness for C4: on the 2×2 engine, a full step whose first-drawn task
(cell `(1, 1)`) fails with message `boom` leaves that task completed (not
rejected) and writes `boom` into the live grid at `(1, 1)`. -/
theorem step_fault_containment_witness :
    cellAt? (erun engineTwoByTwo
        [EEvent.runStep "p" [(1, 1), (0, 0), (1, 0), (0, 1)] 100,
         EEvent.cont 0 100, EEvent.settle 0 (Except.error "boom") 160]).grid 1 1
      = some { text := "boom" } :=
  (step_fault_containment engineTwoByTwo "p" [(1, 1), (0, 0), (1, 0), (0, 1)] 100
      [EEvent.cont 0 100, EEvent.settle 0 (Except.error "boom") 160]
      rfl rfl (gridShape_of_forall_lt _ 2 2 rfl (by decide)) (by decide)
      (by decide)).2.2.2 0
    { x := 1, y := 1
    , snap := [[{ text := "a" }, { text := "b" }], [{ text := "c" }, { text := "d" }]]
    , prompt := "p", precomputed := none, phase := Phase.done
    , args := some { prompt := "p", top := { text := "b" }, bottom := { text := "b" }
                   , left := { text := "c" }, right := { text := "c" }
                   , current := { text := "d" } }
    , outcome := some (Except.error "boom") } "boom" (by decide) rfl rfl
